import Mathlib

/-!
Verification development for the restate partition command interpreter
(`crates/worker/src/partition/state_machine/command_interpreter/mod.rs`).

The interpreter is shallowly embedded: every Rust handler becomes a pure
Lean function.  The `StateReader` trait becomes a structure of total
functions (one per query), the `Effects` buffer becomes a returned list of
`Effect` values (the Rust code only appends to the buffer, and the caller
clears it before each `on_apply`, so the list returned here is exactly the
buffer contents after one `on_apply` on a cleared buffer), and fallible
paths (codec failures, `assert!`, `debug_assert!` and `let_assert!`
violations) return `Except InterpError`.  The wall clock read performed by
`terminate_inboxed_invocation` (`MillisSinceEpoch::now()`) is passed in as
an explicit `now` argument.  Machine integers (sequence numbers, entry
indices, timestamps) are modelled as `Nat`; byte strings as `String`.
-/

namespace Restate

/-- Stand-in for the partition-key hash of `restate_types` (the hash
function itself is not part of the sources; claims depend only on it being
a fixed pure function of the service key). -/
def partitionKeyFor (serviceKey : String) : Nat :=
  serviceKey.length

/-- ServiceId: `(service_name, key)` identifying a virtual object. -/
structure ServiceId where
  serviceName : String
  serviceKey : String
  deriving DecidableEq

/-- FullInvocationId: `(service_id, invocation_uuid)`. -/
structure FullInvocationId where
  serviceId : ServiceId
  invocationUuid : Nat
  deriving DecidableEq

/-- FullInvocationId::new builds the service id from name and key. -/
def FullInvocationId.new (serviceName serviceKey : String) (uuid : Nat) :
    FullInvocationId :=
  ⟨⟨serviceName, serviceKey⟩, uuid⟩

/-- Partition key of a full invocation id, derived from the service key. -/
def FullInvocationId.partitionKey (fid : FullInvocationId) : Nat :=
  partitionKeyFor fid.serviceId.serviceKey

/-- InvocationId: `(partition_key, invocation_uuid)`. -/
structure InvocationId where
  partitionKey : Nat
  invocationUuid : Nat
  deriving DecidableEq

/-- InvocationId::from(&FullInvocationId). -/
def InvocationId.ofFid (fid : FullInvocationId) : InvocationId :=
  ⟨fid.partitionKey, fid.invocationUuid⟩

/-- FullInvocationId::combine(service_id, invocation_id). -/
def FullInvocationId.combine (sid : ServiceId) (iid : InvocationId) :
    FullInvocationId :=
  ⟨sid, iid.invocationUuid⟩

/-- MaybeFullInvocationId: full id preferred, plain invocation id allowed. -/
inductive MaybeFullInvocationId where
  | full (fid : FullInvocationId)
  | invocationOnly (iid : InvocationId)
  deriving DecidableEq

/-- Conversion MaybeFullInvocationId -> InvocationId. -/
def MaybeFullInvocationId.toInvocationId : MaybeFullInvocationId → InvocationId
  | .full fid => InvocationId.ofFid fid
  | .invocationOnly iid => iid

/-- CompletionResult: Empty, Success(bytes) or Failure(code, message). -/
inductive CompletionResult where
  | empty
  | success (value : String)
  | failure (code : Nat) (message : String)
  deriving DecidableEq

/-- Completion: `(entry_index, CompletionResult)`. -/
structure Completion where
  entryIndex : Nat
  result : CompletionResult
  deriving DecidableEq

/-- Completion::new. -/
def Completion.new (entryIndex : Nat) (result : CompletionResult) : Completion :=
  ⟨entryIndex, result⟩

/-- InvocationError: fixed code plus message. -/
structure InvocationError where
  code : Nat
  message : String
  deriving DecidableEq

/-- KILLED_INVOCATION_ERROR constant of restate_types::errors. -/
def KILLED_INVOCATION_ERROR : InvocationError := ⟨409, "killed"⟩

/-- CANCELED_INVOCATION_ERROR constant of restate_types::errors. -/
def CANCELED_INVOCATION_ERROR : InvocationError := ⟨409, "canceled"⟩

/-- CompletionResult::from(&InvocationError). -/
def CompletionResult.ofError (e : InvocationError) : CompletionResult :=
  .failure e.code e.message

/-- ResponseResult: Success(bytes) or Failure(code, message). -/
inductive ResponseResult where
  | success (value : String)
  | failure (code : Nat) (message : String)
  deriving DecidableEq

/-- ResponseResult::from(&InvocationError). -/
def ResponseResult.ofError (e : InvocationError) : ResponseResult :=
  .failure e.code e.message

/-- ResponseResult -> CompletionResult conversion (`result.into()`). -/
def ResponseResult.toCompletionResult : ResponseResult → CompletionResult
  | .success v => .success v
  | .failure c m => .failure c m

/-- Cause recorded in a span context (parent or linked span pointer). -/
inductive SpanCause where
  | parent (traceId : String) (spanId : Nat)
  | linked (traceId : String) (spanId : Nat)
  deriving DecidableEq

/-- ServiceInvocationSpanContext, treated as opaque tracing data plus the
optional cause used by the background-invoke trace effect. -/
structure SpanCtx where
  repr : String
  cause : Option SpanCause
  deriving DecidableEq

/-- SpanRelation returned by `on_apply` (None or parent-of). -/
inductive SpanRelation where
  | none
  | parent (ctx : SpanCtx)
  deriving DecidableEq

/-- span_context.as_parent(). -/
def SpanCtx.asParent (c : SpanCtx) : SpanRelation := .parent c

/-- span_context.span_cause(). -/
def SpanCtx.spanCause (c : SpanCtx) : Option SpanCause := c.cause

/-- InvokeRequest carried in Invoke and BackgroundInvoke entries. -/
structure InvokeRequest where
  serviceName : String
  methodName : String
  parameter : String
  deriving DecidableEq

/-- EntryResult carried by Output, CompleteAwakeable entries. -/
inductive EntryResult where
  | success (value : String)
  | failure (code : Nat) (message : String)
  deriving DecidableEq

/-- EntryResult -> ResponseResult conversion (`result.into()`). -/
def EntryResult.toResponseResult : EntryResult → ResponseResult
  | .success v => .success v
  | .failure c m => .failure c m

/-- Deserialized journal entry payload (restate_types::journal::Entry),
restricted to the fields the interpreter reads. -/
inductive Entry where
  | input (value : String)
  | output (result : EntryResult)
  | getState (key : String)
  | setState (key : String) (value : String)
  | clearState (key : String)
  | clearAllState
  | getStateKeys
  | sleep (wakeUpTime : Nat)
  | invoke (request : InvokeRequest)
  | backgroundInvoke (request : InvokeRequest) (invokeTime : Nat)
  | awakeable
  | completeAwakeable (result : EntryResult)
  | custom (payload : String)
  deriving DecidableEq

/-- InvokeEnrichmentResult attached to Invoke/BackgroundInvoke headers. -/
structure InvokeEnrichmentResult where
  invocationUuid : Nat
  serviceKey : String
  serviceName : String
  spanContext : SpanCtx
  deriving DecidableEq

/-- AwakeableEnrichmentResult attached to CompleteAwakeable headers. -/
structure AwakeableEnrichmentResult where
  invocationId : InvocationId
  entryIndex : Nat
  deriving DecidableEq

/-- EnrichedEntryHeader of restate_types::journal::enriched. -/
inductive EnrichedEntryHeader where
  | input
  | output
  | getState (isCompleted : Bool)
  | setState
  | clearState
  | clearAllState
  | getStateKeys (isCompleted : Bool)
  | sleep (isCompleted : Bool)
  | invoke (isCompleted : Bool) (enrichmentResult : Option InvokeEnrichmentResult)
  | backgroundInvoke (enrichmentResult : InvokeEnrichmentResult)
  | awakeable (isCompleted : Bool)
  | completeAwakeable (enrichmentResult : AwakeableEnrichmentResult)
  | custom (code : Nat) (requiresAck : Bool)
  deriving DecidableEq

/-- header.is_completed(): None for headers without a completed flag. -/
def EnrichedEntryHeader.isCompletedFlag : EnrichedEntryHeader → Option Bool
  | .getState b => some b
  | .getStateKeys b => some b
  | .sleep b => some b
  | .invoke b _ => some b
  | .awakeable b => some b
  | _ => none

/-- header_mut().mark_completed(): set the completed flag where present. -/
def EnrichedEntryHeader.markCompleted : EnrichedEntryHeader → EnrichedEntryHeader
  | .getState _ => .getState true
  | .getStateKeys _ => .getStateKeys true
  | .sleep _ => .sleep true
  | .invoke _ e => .invoke true e
  | .awakeable _ => .awakeable true
  | h => h

/-- EnrichedRawEntry: header plus serialized entry bytes.  The bytes are
modelled by the deserialized payload together with the completion the codec
may have written into them. -/
structure EnrichedRawEntry where
  header : EnrichedEntryHeader
  entry : Entry
  writtenCompletion : Option CompletionResult
  deriving DecidableEq

/-- JournalEntry of the journal table: raw entry or stored completion. -/
inductive JournalEntry where
  | entry (e : EnrichedRawEntry)
  | completion (result : CompletionResult)
  deriving DecidableEq

/-- ServiceInvocationResponseSink.  Modelled from the spec: the sink type
lives in restate_types (not under the sources); per section 4.5 responses
are routed to the outbox for the partition-processor variant and to the
ingress for the ingress variant. -/
inductive ServiceInvocationResponseSink where
  | partitionProcessor (caller : FullInvocationId) (entryIndex : Nat)
  | ingress (ingressDispatcherId : String)
  deriving DecidableEq

/-- Source of a service invocation. -/
inductive Source where
  | ingress
  | service (caller : FullInvocationId)
  | internal
  deriving DecidableEq

/-- ServiceInvocation of restate_types::invocation. -/
structure ServiceInvocation where
  fid : FullInvocationId
  methodName : String
  argument : String
  source : Source
  responseSink : Option ServiceInvocationResponseSink
  spanContext : SpanCtx
  headers : List (String × String)
  executionTime : Option Nat
  deriving DecidableEq

/-- TerminationFlavor: Kill or Cancel. -/
inductive TerminationFlavor where
  | kill
  | cancel
  deriving DecidableEq

/-- InvocationTermination command payload. -/
structure InvocationTermination where
  maybeFid : MaybeFullInvocationId
  flavor : TerminationFlavor
  deriving DecidableEq

/-- InvocationTermination::kill. -/
def InvocationTermination.killOf (fid : FullInvocationId) : InvocationTermination :=
  ⟨.full fid, .kill⟩

/-- InvocationTermination::cancel. -/
def InvocationTermination.cancelOf (fid : FullInvocationId) : InvocationTermination :=
  ⟨.full fid, .cancel⟩

/-- OutboxMessage variants (restate_storage_api::outbox_table). -/
inductive OutboxMessage where
  | serviceInvocation (si : ServiceInvocation)
  | invocationTermination (t : InvocationTermination)
  | serviceResponse (id : MaybeFullInvocationId) (entryIndex : Nat) (result : ResponseResult)
  deriving DecidableEq

/-- OutboxMessage::from_awakeable_completion. -/
def OutboxMessage.fromAwakeableCompletion (iid : InvocationId) (entryIndex : Nat)
    (result : ResponseResult) : OutboxMessage :=
  .serviceResponse (.invocationOnly iid) entryIndex result

/-- IngressResponse of restate_types::ingress. -/
structure IngressResponse where
  ingressDispatcherId : String
  fullInvocationId : FullInvocationId
  result : ResponseResult
  deriving DecidableEq

/-- ResponseMessage of crate::partition::types. -/
inductive ResponseMessage where
  | outbox (msg : OutboxMessage)
  | ingress (r : IngressResponse)
  deriving DecidableEq

/-- Modelled from the spec: `create_response_message` of
crate::partition::types (not under the sources).  Per section 4.5 a
partition-processor sink routes the response into the outbox and an
ingress sink routes it to the ingress. -/
def create_response_message (callee : FullInvocationId)
    (sink : ServiceInvocationResponseSink) (result : ResponseResult) :
    ResponseMessage :=
  match sink with
  | .partitionProcessor caller entryIndex =>
      .outbox (.serviceResponse (.full caller) entryIndex result)
  | .ingress dispatcherId =>
      .ingress ⟨dispatcherId, callee, result⟩

/-- JournalMetadata: span context and journal length. -/
structure JournalMetadata where
  length : Nat
  spanContext : SpanCtx
  deriving DecidableEq

/-- InvocationMetadata of the invocation status table. -/
structure InvocationMetadata where
  serviceId : ServiceId
  method : String
  responseSink : Option ServiceInvocationResponseSink
  journalMetadata : JournalMetadata
  creationTime : Nat
  deriving DecidableEq

/-- InvocationStatus of the invocation status table (the Inboxed variant is
listed in the spec data model; the interpreter only ever matches it through
catch-all arms). -/
inductive InvocationStatus where
  | free
  | inboxed (inboxSequenceNumber : Nat) (invocation : ServiceInvocation)
  | invoked (metadata : InvocationMetadata)
  | suspended (metadata : InvocationMetadata) (waitingForCompletedEntries : List Nat)
  deriving DecidableEq

/-- VirtualObjectStatus: Unlocked or Locked by an invocation. -/
inductive VirtualObjectStatus where
  | unlocked
  | locked (fid : FullInvocationId)
  deriving DecidableEq

/-- SequenceNumberInvocation found in the inbox. -/
structure SequenceNumberInvocation where
  inboxSequenceNumber : Nat
  invocation : ServiceInvocation
  deriving DecidableEq

/-- InboxEntry: queued invocation or queued state mutation. -/
structure ExternalStateMutation where
  componentId : ServiceId
  version : Option String
  state : List (String × String)
  deriving DecidableEq

/-- InboxEntry of the inbox table. -/
inductive InboxEntry where
  | invocation (si : ServiceInvocation)
  | stateMutation (m : ExternalStateMutation)
  deriving DecidableEq

/-- TimerKey: `(invocation_uuid, journal_index, timestamp)`. -/
structure TimerKey where
  invocationUuid : Nat
  journalIndex : Nat
  timestamp : Nat
  deriving DecidableEq

/-- Timer value: complete a sleep entry or fire a scheduled invoke. -/
inductive Timer where
  | completeSleepEntry (sid : ServiceId)
  | invoke (si : ServiceInvocation)
  deriving DecidableEq

/-- TimerValue: key plus timer. -/
structure TimerValue where
  key : TimerKey
  value : Timer
  deriving DecidableEq

/-- TimerValue::new_invoke(fid, execution_time, journal_index, si). -/
def TimerValue.newInvoke (fid : FullInvocationId) (executionTime : Nat)
    (journalIndex : Nat) (si : ServiceInvocation) : TimerValue :=
  ⟨⟨fid.invocationUuid, journalIndex, executionTime⟩, .invoke si⟩

/-- TimerValue::new_sleep(fid, wake_up_time, entry_index). -/
def TimerValue.newSleep (fid : FullInvocationId) (wakeUpTime : Nat)
    (entryIndex : Nat) : TimerValue :=
  ⟨⟨fid.invocationUuid, entryIndex, wakeUpTime⟩, .completeSleepEntry fid.serviceId⟩

/-- Outcome recorded by the invocation-result trace effect. -/
inductive InvocationResultOutcome where
  | ok
  | err (code : Nat) (message : String)
  deriving DecidableEq

/-- Invoker effect kinds delivered by the invoker. -/
inductive InvokerEffectKind where
  | selectedDeployment (deploymentId : String)
  | journalEntry (entryIndex : Nat) (entry : EnrichedRawEntry)
  | suspended (waitingForCompletedEntries : List Nat)
  | End
  | failed (e : InvocationError)
  deriving DecidableEq

/-- InvokerEffect command payload. -/
structure InvokerEffect where
  fullInvocationId : FullInvocationId
  kind : InvokerEffectKind
  deriving DecidableEq

/-- BuiltinServiceEffect of restate_wal_protocol::effects. -/
inductive BuiltinServiceEffect where
  | setState (key : String) (value : String)
  | clearState (key : String)
  | outboxMessage (msg : OutboxMessage)
  | End (e : Option InvocationError)
  | ingressResponse (r : IngressResponse)
  deriving DecidableEq

/-- BuiltinServiceEffects: target invocation plus effect list. -/
structure BuiltinServiceEffects where
  fullInvocationId : FullInvocationId
  effects : List BuiltinServiceEffect
  deriving DecidableEq

/-- Command consumed by the interpreter (restate_wal_protocol::Command). -/
inductive Command where
  | invoke (si : ServiceInvocation)
  | invocationResponse (id : MaybeFullInvocationId) (entryIndex : Nat) (result : ResponseResult)
  | invokerEffect (e : InvokerEffect)
  | truncateOutbox (index : Nat)
  | timer (tv : TimerValue)
  | terminateInvocation (t : InvocationTermination)
  | builtInInvokerEffect (e : BuiltinServiceEffects)
  | patchState (m : ExternalStateMutation)
  | announceLeader
  deriving DecidableEq

/-- One record of the Effects buffer (crate::partition::state_machine::effects).
Each constructor carries exactly the arguments the interpreter passes. -/
inductive Effect where
  | invokeService (si : ServiceInvocation)
  | resumeService (iid : InvocationId) (m : InvocationMetadata)
  | suspendService (iid : InvocationId) (m : InvocationMetadata) (waitingFor : List Nat)
  | storeChosenDeployment (iid : InvocationId) (deploymentId : String) (m : InvocationMetadata)
  | abortInvocation (fid : FullInvocationId)
  | dropJournalAndPopInbox (fid : FullInvocationId) (journalLength : Nat)
  | appendJournalEntry (iid : InvocationId) (previousStatus : InvocationStatus)
      (entryIndex : Nat) (entry : EnrichedRawEntry)
  | storeCompletion (iid : InvocationId) (c : Completion)
  | forwardCompletion (fid : FullInvocationId) (c : Completion)
  | sendStoredAckToInvoker (fid : FullInvocationId) (entryIndex : Nat)
  | setState (sid : ServiceId) (iid : InvocationId) (span : SpanCtx)
      (key : String) (value : String)
  | clearState (sid : ServiceId) (iid : InvocationId) (span : SpanCtx) (key : String)
  | clearAllState (sid : ServiceId) (iid : InvocationId) (span : SpanCtx)
  | applyStateMutation (m : ExternalStateMutation)
  | enqueueIntoInbox (seq : Nat) (e : InboxEntry)
  | deleteInboxEntry (sid : ServiceId) (seq : Nat)
  | enqueueIntoOutbox (seq : Nat) (msg : OutboxMessage)
  | truncateOutbox (upTo : Nat)
  | registerTimer (tv : TimerValue) (span : SpanCtx)
  | deleteTimer (key : TimerKey)
  | sendIngressResponse (r : IngressResponse)
  | traceBackgroundInvoke (fid : FullInvocationId) (method : String)
      (span : SpanCtx) (pointerSpanId : Option Nat)
  | traceInvocationResult (fid : FullInvocationId) (method : String)
      (span : SpanCtx) (creationTime : Nat) (result : InvocationResultOutcome)
  deriving DecidableEq

/-- Interpreter failures: assertion violations (`assert!`, `debug_assert!`
and `let_assert!` are modelled as failures) and codec errors. -/
inductive InterpError where
  | assertionFailed (message : String)
  | codecFailed (message : String)
  deriving DecidableEq

/-- StateReader trait as a structure of total query functions: two readers
answer identically exactly when the corresponding fields agree pointwise. -/
structure StateReader where
  getVirtualObjectStatus : ServiceId → VirtualObjectStatus
  getInvocationStatus : InvocationId → InvocationStatus
  getInboxedInvocation : MaybeFullInvocationId → Option SequenceNumberInvocation
  isEntryResumable : InvocationId → Nat → Bool
  loadState : ServiceId → String → Option String
  loadStateKeys : ServiceId → List String
  loadCompletionResult : InvocationId → Nat → Option CompletionResult
  getJournal : InvocationId → Nat → List (Nat × JournalEntry)

/-- RawEntryCodec capability (the interpreter is generic over the codec). -/
structure EntryCodec where
  writeCompletion : EnrichedRawEntry → CompletionResult → Except InterpError EnrichedRawEntry
  serializeGetStateKeysCompletion : List String → CompletionResult
  deserializeEntry : EnrichedRawEntry → Except InterpError Entry

/-- ProtobufRawEntryCodec::deserialize(entry_type, bytes) used by the
cancellation walker on Sleep entries: with entry bytes modelled by their
deserialized payload this returns the payload. -/
def protobufDeserialize (e : Entry) : Except InterpError Entry :=
  .ok e

/-- Concrete codec used for witnesses: entry bytes are modelled by their
deserialized payload, so deserialization returns the payload and writing a
completion marks the header completed and records the result. -/
def identityCodec : EntryCodec where
  writeCompletion re c :=
    .ok { re with header := re.header.markCompleted, writtenCompletion := some c }
  serializeGetStateKeysCompletion keys :=
    .success (String.intercalate "," keys)
  deserializeEntry re := .ok re.entry

/-- Effect vocabulary of the deterministic built-in service invoker. -/
inductive DeterministicEffect where
  | outboxMessage (msg : OutboxMessage)
  | ingressResponse (r : IngressResponse)
  deriving DecidableEq

/-- Modelled from the spec: the deterministic built-in service invoker
(crate::partition::services::deterministic, not under the sources).
Section 4.4 and component C4: synchronous in-process services whose output
is a fixed pure function of the invocation inputs. -/
structure DeterministicServiceInvoker where
  isSupported : String → Bool
  invoke : FullInvocationId → String → SpanCtx → Option ServiceInvocationResponseSink →
    String → List DeterministicEffect

/-- Mutable interpreter fields: the two sequence counters and the owned
partition key range (inclusive). -/
structure InterpState where
  inboxSeqNumber : Nat
  outboxSeqNumber : Nat
  partitionKeyRangeLo : Nat
  partitionKeyRangeHi : Nat
  deriving DecidableEq

/-- Projected invocation status used by the cancellation walker. -/
inductive InvocationStatusProjection where
  | invoked
  | suspended (waitingForCompletedEntries : List Nat)
  deriving DecidableEq

/-- CommandInterpreter::enqueue_into_inbox. -/
def enqueue_into_inbox (s : InterpState) (inboxEntry : InboxEntry) :
    InterpState × List Effect :=
  ({ s with inboxSeqNumber := s.inboxSeqNumber + 1 },
    [.enqueueIntoInbox s.inboxSeqNumber inboxEntry])

/-- CommandInterpreter::handle_outgoing_message: append to the outbox with
the current sequence number and increment the counter (the commented-out
same-partition fast path of the source is absent by design). -/
def handle_outgoing_message (s : InterpState) (message : OutboxMessage) :
    InterpState × List Effect :=
  ({ s with outboxSeqNumber := s.outboxSeqNumber + 1 },
    [.enqueueIntoOutbox s.outboxSeqNumber message])

/-- CommandInterpreter::ingress_response. -/
def ingress_response (r : IngressResponse) : List Effect :=
  [.sendIngressResponse r]

/-- CommandInterpreter::send_response: route to outbox or ingress. -/
def send_response (s : InterpState) (response : ResponseMessage) :
    InterpState × List Effect :=
  match response with
  | .outbox msg => handle_outgoing_message s msg
  | .ingress r => (s, ingress_response r)

/-- CommandInterpreter::try_send_failure_response. -/
def try_send_failure_response (s : InterpState) (fid : FullInvocationId)
    (responseSink : Option ServiceInvocationResponseSink) (error : InvocationError) :
    InterpState × List Effect :=
  match responseSink with
  | some sink =>
      send_response s (create_response_message fid sink (ResponseResult.ofError error))
  | none => (s, [])

/-- CommandInterpreter::notify_invocation_result. -/
def notify_invocation_result (fid : FullInvocationId) (serviceMethod : String)
    (spanContext : SpanCtx) (creationTime : Nat) (result : InvocationResultOutcome) :
    List Effect :=
  [.traceInvocationResult fid serviceMethod spanContext creationTime result]

/-- CommandInterpreter::end_invocation_lifecycle. -/
def end_invocation_lifecycle (fid : FullInvocationId) (journalLength : Nat) :
    List Effect :=
  [.dropJournalAndPopInbox fid journalLength]

/-- CommandInterpreter::fail_invocation: failure response on the sink if
any, invocation-result trace, then drop journal and pop inbox. -/
def fail_invocation (s : InterpState) (fid : FullInvocationId)
    (metadata : InvocationMetadata) (error : InvocationError) :
    InterpState × List Effect :=
  let (s1, e1) := try_send_failure_response s fid metadata.responseSink error
  (s1, e1
    ++ notify_invocation_result fid metadata.method
        metadata.journalMetadata.spanContext metadata.creationTime
        (.err error.code error.message)
    ++ end_invocation_lifecycle fid metadata.journalMetadata.length)

/-- CommandInterpreter::end_invocation. -/
def end_invocation (s : InterpState) (fid : FullInvocationId)
    (metadata : InvocationMetadata) : InterpState × List Effect :=
  (s, notify_invocation_result fid metadata.method
        metadata.journalMetadata.spanContext metadata.creationTime .ok
    ++ end_invocation_lifecycle fid metadata.journalMetadata.length)

/-- CommandInterpreter::handle_completion_for_invoked. -/
def handle_completion_for_invoked (fid : FullInvocationId) (completion : Completion) :
    List Effect :=
  [.storeCompletion (InvocationId.ofFid fid) completion,
   .forwardCompletion fid completion]

/-- CommandInterpreter::handle_completion_for_suspended: store the
completion and report whether the suspended invocation awaited that index. -/
def handle_completion_for_suspended (fid : FullInvocationId) (completion : Completion)
    (waitingForCompletedEntries : List Nat) : Bool × List Effect :=
  (waitingForCompletedEntries.contains completion.entryIndex,
    [.storeCompletion (InvocationId.ofFid fid) completion])

/-- CommandInterpreter::cancel_journal_entry_with. -/
def cancel_journal_entry_with (fid : FullInvocationId)
    (invocationStatus : InvocationStatusProjection) (journalIndex : Nat)
    (canceledResult : CompletionResult) : Bool × List Effect :=
  match invocationStatus with
  | .invoked =>
      (false, handle_completion_for_invoked fid (Completion.new journalIndex canceledResult))
  | .suspended waiting =>
      handle_completion_for_suspended fid (Completion.new journalIndex canceledResult) waiting

/-- CommandInterpreter::read_invocation_status. -/
def read_invocation_status (reader : StateReader)
    (maybeFid : MaybeFullInvocationId) : InvocationStatus :=
  match maybeFid with
  | .invocationOnly iid => reader.getInvocationStatus iid
  | .full fid => reader.getInvocationStatus (InvocationId.ofFid fid)

/-- CommandInterpreter::handle_completion (associated function, touches no
counters). -/
def handle_completion (reader : StateReader) (maybeFid : MaybeFullInvocationId)
    (completion : Completion) :
    (Option FullInvocationId × SpanRelation) × List Effect :=
  let status := read_invocation_status reader maybeFid
  let iid := maybeFid.toInvocationId
  match status with
  | .invoked metadata =>
      let fid := FullInvocationId.combine metadata.serviceId iid
      ((some fid, metadata.journalMetadata.spanContext.asParent),
        handle_completion_for_invoked fid completion)
  | .suspended metadata waiting =>
      let fid := FullInvocationId.combine metadata.serviceId iid
      let (resume, effs) := handle_completion_for_suspended fid completion waiting
      ((some fid, metadata.journalMetadata.spanContext.asParent),
        effs ++ if resume then [.resumeService (InvocationId.ofFid fid) metadata] else [])
  | _ => ((none, .none), [])

/-- CommandInterpreter::terminate_inboxed_invocation.  The wall-clock read
`MillisSinceEpoch::now()` of the source is the explicit `now` argument. -/
def terminate_inboxed_invocation (s : InterpState)
    (inboxEntry : SequenceNumberInvocation) (error : InvocationError) (now : Nat) :
    (Option FullInvocationId × SpanRelation) × InterpState × List Effect :=
  let si := inboxEntry.invocation
  let fid := si.fid
  let spanContext := si.spanContext
  let parentSpan := spanContext.asParent
  let (s1, e1) := try_send_failure_response s fid si.responseSink error
  let e2 := notify_invocation_result fid si.methodName spanContext now
    (.err error.code error.message)
  ((some fid, parentSpan), s1,
    e1 ++ e2 ++ [.deleteInboxEntry fid.serviceId inboxEntry.inboxSequenceNumber])

/-- CommandInterpreter::try_terminate_inboxed_invocation. -/
def try_terminate_inboxed_invocation (s : InterpState) (reader : StateReader)
    (terminationFlavor : TerminationFlavor) (maybeFid : MaybeFullInvocationId)
    (now : Nat) :
    (Option FullInvocationId × SpanRelation) × InterpState × List Effect :=
  let error := match terminationFlavor with
    | .kill => KILLED_INVOCATION_ERROR
    | .cancel => CANCELED_INVOCATION_ERROR
  match reader.getInboxedInvocation maybeFid with
  | some inboxEntry => terminate_inboxed_invocation s inboxEntry error now
  | none =>
      match maybeFid with
      | .full fid => ((some fid, .none), s, [.abortInvocation fid])
      | .invocationOnly _ => ((none, .none), s, [])

/-- Journal walk of CommandInterpreter::kill_child_invocations: enqueue an
outbox kill for every uncompleted Invoke entry carrying an enrichment
result; background and delayed calls are left alone. -/
def kill_child_loop (s : InterpState) :
    List (Nat × JournalEntry) → InterpState × List Effect
  | [] => (s, [])
  | (_, journalEntry) :: rest =>
    match journalEntry with
    | .entry enrichedEntry =>
      match enrichedEntry.header with
      | .invoke false (some enrichmentResult) =>
          let targetFid := FullInvocationId.new enrichmentResult.serviceName
            enrichmentResult.serviceKey enrichmentResult.invocationUuid
          let (s1, e1) := handle_outgoing_message s
            (.invocationTermination (InvocationTermination.killOf targetFid))
          let (s2, e2) := kill_child_loop s1 rest
          (s2, e1 ++ e2)
      | _ => kill_child_loop s rest
    | .completion _ => kill_child_loop s rest

/-- CommandInterpreter::kill_child_invocations. -/
def kill_child_invocations (s : InterpState) (reader : StateReader)
    (iid : InvocationId) (journalLength : Nat) : InterpState × List Effect :=
  kill_child_loop s (reader.getJournal iid journalLength)

/-- CommandInterpreter::kill_invocation: kill children, fail the invocation
with KILLED_INVOCATION_ERROR, then abort it at the invoker. -/
def kill_invocation (s : InterpState) (reader : StateReader)
    (fid : FullInvocationId) (metadata : InvocationMetadata) :
    InterpState × List Effect :=
  let (s1, e1) := kill_child_invocations s reader (InvocationId.ofFid fid)
    metadata.journalMetadata.length
  let (s2, e2) := fail_invocation s1 fid metadata KILLED_INVOCATION_ERROR
  (s2, e1 ++ e2 ++ [.abortInvocation fid])

/-- CommandInterpreter::try_kill_invocation. -/
def try_kill_invocation (s : InterpState) (reader : StateReader)
    (maybeFid : MaybeFullInvocationId) (now : Nat) :
    (Option FullInvocationId × SpanRelation) × InterpState × List Effect :=
  let iid := maybeFid.toInvocationId
  match reader.getInvocationStatus iid with
  | .invoked metadata =>
      let relatedSpan := metadata.journalMetadata.spanContext.asParent
      let fid := FullInvocationId.combine metadata.serviceId iid
      let (s1, e1) := kill_invocation s reader fid metadata
      ((some fid, relatedSpan), s1, e1)
  | .suspended metadata _ =>
      let relatedSpan := metadata.journalMetadata.spanContext.asParent
      let fid := FullInvocationId.combine metadata.serviceId iid
      let (s1, e1) := kill_invocation s reader fid metadata
      ((some fid, relatedSpan), s1, e1)
  | _ => try_terminate_inboxed_invocation s reader .kill maybeFid now

/-- Journal walk of CommandInterpreter::cancel_journal_leaves.  Failures of
`let_assert!` (a Sleep entry whose payload is not a sleep entry) and of the
completeness assertion on the remaining headers are modelled as errors. -/
def cancel_journal_loop (fid : FullInvocationId)
    (invocationStatus : InvocationStatusProjection)
    (canceledResult : CompletionResult) :
    InterpState → List (Nat × JournalEntry) →
    Except InterpError (Bool × InterpState × List Effect)
  | s, [] => .ok (false, s, [])
  | s, (journalIndex, journalEntry) :: rest =>
    match journalEntry with
    | .completion _ => cancel_journal_loop fid invocationStatus canceledResult s rest
    | .entry enrichedEntry =>
      match enrichedEntry.header with
      | .invoke false (some enrichmentResult) =>
          let targetFid := FullInvocationId.new enrichmentResult.serviceName
            enrichmentResult.serviceKey enrichmentResult.invocationUuid
          let (s1, e1) := handle_outgoing_message s
            (.invocationTermination (InvocationTermination.cancelOf targetFid))
          do
            let (r, s2, e2) ← cancel_journal_loop fid invocationStatus canceledResult s1 rest
            .ok (r, s2, e1 ++ e2)
      | .awakeable false =>
          let (r1, e1) := cancel_journal_entry_with fid invocationStatus journalIndex
            canceledResult
          do
            let (r, s2, e2) ← cancel_journal_loop fid invocationStatus canceledResult s rest
            .ok (r1 || r, s2, e1 ++ e2)
      | .getState false =>
          let (r1, e1) := cancel_journal_entry_with fid invocationStatus journalIndex
            canceledResult
          do
            let (r, s2, e2) ← cancel_journal_loop fid invocationStatus canceledResult s rest
            .ok (r1 || r, s2, e1 ++ e2)
      | .sleep false =>
          let (r1, e1) := cancel_journal_entry_with fid invocationStatus journalIndex
            canceledResult
          do
            let payload ← protobufDeserialize enrichedEntry.entry
            match payload with
            | .sleep wakeUpTime =>
                let timerKey : TimerKey := ⟨fid.invocationUuid, journalIndex, wakeUpTime⟩
                let (r, s2, e2) ←
                  cancel_journal_loop fid invocationStatus canceledResult s rest
                .ok (r1 || r, s2, e1 ++ [.deleteTimer timerKey] ++ e2)
            | _ => .error (.assertionFailed "expected a sleep entry")
      | h =>
          if h.isCompletedFlag.getD true then
            cancel_journal_loop fid invocationStatus canceledResult s rest
          else
            .error (.assertionFailed "All non canceled journal entries must be completed.")

/-- CommandInterpreter::cancel_journal_leaves. -/
def cancel_journal_leaves (s : InterpState) (reader : StateReader)
    (fid : FullInvocationId) (invocationStatus : InvocationStatusProjection)
    (journalLength : Nat) : Except InterpError (Bool × InterpState × List Effect) :=
  cancel_journal_loop fid invocationStatus
    (CompletionResult.ofError CANCELED_INVOCATION_ERROR) s
    (reader.getJournal (InvocationId.ofFid fid) journalLength)

/-- CommandInterpreter::try_cancel_invocation. -/
def try_cancel_invocation (s : InterpState) (reader : StateReader)
    (maybeFid : MaybeFullInvocationId) (now : Nat) :
    Except InterpError ((Option FullInvocationId × SpanRelation) × InterpState × List Effect) :=
  let iid := maybeFid.toInvocationId
  match reader.getInvocationStatus iid with
  | .invoked metadata =>
      let relatedSpan := metadata.journalMetadata.spanContext.asParent
      let fid := FullInvocationId.combine metadata.serviceId iid
      do
        let (_, s1, e1) ← cancel_journal_leaves s reader fid .invoked
          metadata.journalMetadata.length
        .ok ((some fid, relatedSpan), s1, e1)
  | .suspended metadata waitingForCompletedEntries =>
      let relatedSpan := metadata.journalMetadata.spanContext.asParent
      let fid := FullInvocationId.combine metadata.serviceId iid
      do
        let (resume, s1, e1) ← cancel_journal_leaves s reader fid
          (.suspended waitingForCompletedEntries) metadata.journalMetadata.length
        if resume then
          .ok ((some fid, relatedSpan), s1,
            e1 ++ [.resumeService (InvocationId.ofFid fid) metadata])
        else
          .ok ((some fid, relatedSpan), s1, e1)
  | _ => .ok (try_terminate_inboxed_invocation s reader .cancel maybeFid now)

/-- CommandInterpreter::try_terminate_invocation. -/
def try_terminate_invocation (s : InterpState) (reader : StateReader)
    (t : InvocationTermination) (now : Nat) :
    Except InterpError ((Option FullInvocationId × SpanRelation) × InterpState × List Effect) :=
  match t.flavor with
  | .kill => .ok (try_kill_invocation s reader t.maybeFid now)
  | .cancel => try_cancel_invocation s reader t.maybeFid now

/-- CommandInterpreter::create_service_invocation. -/
def create_service_invocation (invocationUuid : Nat) (invocationKey : String)
    (invokeRequest : InvokeRequest) (source : Source)
    (responseTarget : Option (FullInvocationId × Nat)) (spanContext : SpanCtx)
    (executionTime : Option Nat) : ServiceInvocation :=
  let responseSink := match responseTarget with
    | some (caller, entryIndex) =>
        some (.partitionProcessor caller entryIndex)
    | none => none
  { fid := FullInvocationId.new invokeRequest.serviceName invocationKey invocationUuid
    methodName := invokeRequest.methodName
    argument := invokeRequest.parameter
    source := source
    responseSink := responseSink
    spanContext := spanContext
    headers := []
    executionTime := executionTime }

/-- Body of CommandInterpreter::handle_journal_entry after the index
guard: the per-header-kind dispatch.  Returns the counters, the effects
emitted by the dispatch, and the (possibly completion-carrying) raw entry
that will be appended. -/
def handle_journal_entry_body (codec : EntryCodec) (s : InterpState)
    (reader : StateReader) (fid : FullInvocationId) (entryIndex : Nat)
    (journalEntry : EnrichedRawEntry) (metadata : InvocationMetadata) :
    Except InterpError (InterpState × List Effect × EnrichedRawEntry) :=
  match journalEntry.header with
  | .input => .ok (s, [], journalEntry)
  | .output =>
    match metadata.responseSink with
    | some responseSink =>
      do
        let payload ← codec.deserializeEntry journalEntry
        match payload with
        | .output result =>
            let (s1, e1) := send_response s
              (create_response_message fid responseSink result.toResponseResult)
            .ok (s1, e1, journalEntry)
        | _ => .error (.assertionFailed "expected an output entry")
    | none => .ok (s, [], journalEntry)
  | .getState isCompleted =>
    if isCompleted then
      .ok (s, [], journalEntry)
    else
      do
        let payload ← codec.deserializeEntry journalEntry
        match payload with
        | .getState key =>
            let value := reader.loadState fid.serviceId key
            let completionResult := (value.map CompletionResult.success).getD .empty
            let journalEntry1 ← codec.writeCompletion journalEntry completionResult
            .ok (s, [.forwardCompletion fid (Completion.new entryIndex completionResult)],
              journalEntry1)
        | _ => .error (.assertionFailed "expected a get-state entry")
  | .setState =>
    do
      let payload ← codec.deserializeEntry journalEntry
      match payload with
      | .setState key value =>
          .ok (s, [.setState fid.serviceId (InvocationId.ofFid fid)
            metadata.journalMetadata.spanContext key value], journalEntry)
      | _ => .error (.assertionFailed "expected a set-state entry")
  | .clearState =>
    do
      let payload ← codec.deserializeEntry journalEntry
      match payload with
      | .clearState key =>
          .ok (s, [.clearState fid.serviceId (InvocationId.ofFid fid)
            metadata.journalMetadata.spanContext key], journalEntry)
      | _ => .error (.assertionFailed "expected a clear-state entry")
  | .clearAllState =>
      .ok (s, [.clearAllState fid.serviceId (InvocationId.ofFid fid)
        metadata.journalMetadata.spanContext], journalEntry)
  | .getStateKeys isCompleted =>
    if isCompleted then
      .ok (s, [], journalEntry)
    else
      do
        let value := reader.loadStateKeys fid.serviceId
        let completionResult := codec.serializeGetStateKeysCompletion value
        let journalEntry1 ← codec.writeCompletion journalEntry completionResult
        .ok (s, [.forwardCompletion fid (Completion.new entryIndex completionResult)],
          journalEntry1)
  | .sleep isCompleted =>
    if isCompleted then
      .error (.assertionFailed "Sleep entry must not be completed.")
    else
      do
        let payload ← codec.deserializeEntry journalEntry
        match payload with
        | .sleep wakeUpTime =>
            .ok (s, [.registerTimer (TimerValue.newSleep fid wakeUpTime entryIndex)
              metadata.journalMetadata.spanContext], journalEntry)
        | _ => .error (.assertionFailed "expected a sleep entry")
  | .invoke _ enrichmentResult =>
    match enrichmentResult with
    | some er =>
      do
        let payload ← codec.deserializeEntry journalEntry
        match payload with
        | .invoke request =>
            let serviceInvocation := create_service_invocation er.invocationUuid
              er.serviceKey request (.service fid) (some (fid, entryIndex))
              er.spanContext none
            let (s1, e1) := handle_outgoing_message s
              (.serviceInvocation serviceInvocation)
            .ok (s1, e1, journalEntry)
        | _ => .error (.assertionFailed "expected an invoke entry")
    | none => .ok (s, [], journalEntry)
  | .backgroundInvoke er =>
    do
      let payload ← codec.deserializeEntry journalEntry
      match payload with
      | .backgroundInvoke request invokeTime =>
          let serviceMethod := request.methodName
          let delay := if invokeTime == 0 then none else some invokeTime
          let serviceInvocation := create_service_invocation er.invocationUuid
            er.serviceKey request (.service fid) none er.spanContext delay
          let pointerSpanId := match er.spanContext.spanCause with
            | some (.linked _ spanId) => some spanId
            | _ => none
          let e1 := [Effect.traceBackgroundInvoke serviceInvocation.fid serviceMethod
            metadata.journalMetadata.spanContext pointerSpanId]
          let (s1, e2) := handle_outgoing_message s
            (.serviceInvocation serviceInvocation)
          .ok (s1, e1 ++ e2, journalEntry)
      | _ => .error (.assertionFailed "expected a background-invoke entry")
  | .awakeable isCompleted =>
    if isCompleted then
      .error (.assertionFailed "Awakeable entry must not be completed.")
    else
      match reader.loadCompletionResult (InvocationId.ofFid fid) entryIndex with
      | some completionResult =>
        do
          let journalEntry1 ← codec.writeCompletion journalEntry completionResult
          .ok (s, [.forwardCompletion fid (Completion.new entryIndex completionResult)],
            journalEntry1)
      | none => .ok (s, [], journalEntry)
  | .completeAwakeable er =>
    do
      let payload ← codec.deserializeEntry journalEntry
      match payload with
      | .completeAwakeable result =>
          let (s1, e1) := handle_outgoing_message s
            (OutboxMessage.fromAwakeableCompletion er.invocationId er.entryIndex
              result.toResponseResult)
          .ok (s1, e1, journalEntry)
      | _ => .error (.assertionFailed "expected a complete-awakeable entry")
  | .custom _ _ => .ok (s, [], journalEntry)

/-- CommandInterpreter::handle_journal_entry: fail fast unless the index is
exactly the stored journal length, dispatch on the header, then always
append the journal entry and send the stored ack to the invoker. -/
def handle_journal_entry (codec : EntryCodec) (s : InterpState)
    (reader : StateReader) (fid : FullInvocationId) (entryIndex : Nat)
    (journalEntry : EnrichedRawEntry) (metadata : InvocationMetadata) :
    Except InterpError (InterpState × List Effect) :=
  if entryIndex ≠ metadata.journalMetadata.length then
    .error (.assertionFailed "Expect to receive next journal entry")
  else
    do
      let (s1, e1, journalEntry1) ← handle_journal_entry_body codec s reader fid
        entryIndex journalEntry metadata
      .ok (s1, e1
        ++ [.appendJournalEntry (InvocationId.ofFid fid) (.invoked metadata)
              entryIndex journalEntry1,
            .sendStoredAckToInvoker fid entryIndex])

/-- CommandInterpreter::on_invoker_effect (status already known Invoked). -/
def on_invoker_effect (codec : EntryCodec) (s : InterpState)
    (reader : StateReader) (effect : InvokerEffect)
    (invocationMetadata : InvocationMetadata) :
    Except InterpError ((FullInvocationId × SpanRelation) × InterpState × List Effect) :=
  let fid := effect.fullInvocationId
  let relatedSid := fid
  let spanRelation := invocationMetadata.journalMetadata.spanContext.asParent
  match effect.kind with
  | .selectedDeployment deploymentId =>
      .ok ((relatedSid, spanRelation), s,
        [.storeChosenDeployment (InvocationId.ofFid fid) deploymentId
          invocationMetadata])
  | .journalEntry entryIndex entry =>
    do
      let (s1, e1) ← handle_journal_entry codec s reader fid entryIndex entry
        invocationMetadata
      .ok ((relatedSid, spanRelation), s1, e1)
  | .suspended waitingForCompletedEntries =>
      let iid := InvocationId.ofFid fid
      if waitingForCompletedEntries.isEmpty then
        .error (.assertionFailed "Expecting at least one entry on which the invocation is waiting.")
      else
        let anyCompleted :=
          waitingForCompletedEntries.any (fun i => reader.isEntryResumable iid i)
        if anyCompleted then
          .ok ((relatedSid, spanRelation), s,
            [.resumeService iid invocationMetadata])
        else
          .ok ((relatedSid, spanRelation), s,
            [.suspendService iid invocationMetadata waitingForCompletedEntries])
  | .End =>
      let (s1, e1) := end_invocation s fid invocationMetadata
      .ok ((relatedSid, spanRelation), s1, e1)
  | .failed e =>
      let (s1, e1) := fail_invocation s fid invocationMetadata e
      .ok ((relatedSid, spanRelation), s1, e1)

/-- CommandInterpreter::try_invoker_effect: on a non-Invoked status the
effect is ignored and a single abort_invocation is emitted. -/
def try_invoker_effect (codec : EntryCodec) (s : InterpState)
    (reader : StateReader) (invokerEffect : InvokerEffect) :
    Except InterpError ((FullInvocationId × SpanRelation) × InterpState × List Effect) :=
  let iid := InvocationId.ofFid invokerEffect.fullInvocationId
  match reader.getInvocationStatus iid with
  | .invoked invocationMetadata =>
      on_invoker_effect codec s reader invokerEffect invocationMetadata
  | _ =>
      .ok ((invokerEffect.fullInvocationId, .none), s,
        [.abortInvocation invokerEffect.fullInvocationId])

/-- CommandInterpreter::handle_deterministic_built_in_service_invocation:
run the built-in synchronously and route its effects. -/
def deterministic_effects_loop (s : InterpState) :
    List DeterministicEffect → InterpState × List Effect
  | [] => (s, [])
  | .outboxMessage msg :: rest =>
      let (s1, e1) := handle_outgoing_message s msg
      let (s2, e2) := deterministic_effects_loop s1 rest
      (s2, e1 ++ e2)
  | .ingressResponse r :: rest =>
      let (s2, e2) := deterministic_effects_loop s rest
      (s2, ingress_response r ++ e2)

/-- CommandInterpreter::handle_deterministic_built_in_service_invocation. -/
def handle_deterministic_built_in_service_invocation
    (det : DeterministicServiceInvoker) (s : InterpState)
    (invocation : ServiceInvocation) : InterpState × List Effect :=
  deterministic_effects_loop s
    (det.invoke invocation.fid invocation.methodName invocation.spanContext
      invocation.responseSink invocation.argument)

/-- CommandInterpreter::handle_invoke: scheduled invocations only register
a timer; otherwise run a built-in, invoke directly when the object is
unlocked, or queue into the inbox. -/
def handle_invoke (det : DeterministicServiceInvoker) (s : InterpState)
    (reader : StateReader) (serviceInvocation : ServiceInvocation) :
    Except InterpError ((Option FullInvocationId × SpanRelation) × InterpState × List Effect) :=
  let pk := serviceInvocation.fid.partitionKey
  if ¬ (s.partitionKeyRangeLo ≤ pk ∧ pk ≤ s.partitionKeyRangeHi) then
    .error (.assertionFailed "Service invocation delivered to the wrong partition.")
  else
    match serviceInvocation.executionTime with
    | some executionTime =>
        let spanContext := serviceInvocation.spanContext
        .ok ((none, .none), s,
          [.registerTimer (TimerValue.newInvoke serviceInvocation.fid executionTime 0
            serviceInvocation) spanContext])
    | none =>
        let serviceStatus :=
          reader.getVirtualObjectStatus serviceInvocation.fid.serviceId
        let fid := serviceInvocation.fid
        let spanRelation := serviceInvocation.spanContext.asParent
        if det.isSupported fid.serviceId.serviceName then
          let (s1, e1) := handle_deterministic_built_in_service_invocation det s
            serviceInvocation
          .ok ((some fid, spanRelation), s1, e1)
        else
          match serviceStatus with
          | .unlocked =>
              .ok ((some fid, spanRelation), s, [.invokeService serviceInvocation])
          | .locked _ =>
              let (s1, e1) := enqueue_into_inbox s (.invocation serviceInvocation)
              .ok ((some fid, spanRelation), s1, e1)

/-- CommandInterpreter::handle_external_state_mutation. -/
def handle_external_state_mutation (s : InterpState) (reader : StateReader)
    (mutation : ExternalStateMutation) :
    (Option FullInvocationId × SpanRelation) × InterpState × List Effect :=
  match reader.getVirtualObjectStatus mutation.componentId with
  | .locked _ =>
      let (s1, e1) := enqueue_into_inbox s (.stateMutation mutation)
      ((none, .none), s1, e1)
  | .unlocked => ((none, .none), s, [.applyStateMutation mutation])

/-- CommandInterpreter::on_timer: delete the timer, then either complete
the sleep entry or clear the execution time and re-enter the invoke flow. -/
def on_timer (det : DeterministicServiceInvoker) (s : InterpState)
    (reader : StateReader) (timerValue : TimerValue) :
    Except InterpError ((Option FullInvocationId × SpanRelation) × InterpState × List Effect) :=
  let key := timerValue.key
  let value := timerValue.value
  let invocationUuid := key.invocationUuid
  let entryIndex := key.journalIndex
  match value with
  | .completeSleepEntry serviceId =>
      let (ret, e1) := handle_completion reader
        (.full ⟨serviceId, invocationUuid⟩)
        { entryIndex := entryIndex, result := .empty }
      .ok (ret, s, [.deleteTimer key] ++ e1)
  | .invoke serviceInvocation =>
      do
        let (ret, s1, e1) ← handle_invoke det s reader
          { serviceInvocation with executionTime := none }
        .ok (ret, s1, [.deleteTimer key] ++ e1)

/-- CommandInterpreter::on_built_in_invoker_effect. -/
def on_built_in_invoker_effect (s : InterpState) (fid : FullInvocationId)
    (invocationMetadata : InvocationMetadata) (nbisEffect : BuiltinServiceEffect) :
    InterpState × List Effect :=
  match nbisEffect with
  | .setState key value =>
      (s, [.setState fid.serviceId (InvocationId.ofFid fid)
        invocationMetadata.journalMetadata.spanContext key value])
  | .clearState key =>
      (s, [.clearState fid.serviceId (InvocationId.ofFid fid)
        invocationMetadata.journalMetadata.spanContext key])
  | .outboxMessage msg => handle_outgoing_message s msg
  | .End none => end_invocation s fid invocationMetadata
  | .End (some e) => fail_invocation s fid invocationMetadata e
  | .ingressResponse r => (s, ingress_response r)

/-- Effect loop of CommandInterpreter::try_built_in_invoker_effect. -/
def built_in_effects_loop (fid : FullInvocationId)
    (invocationMetadata : InvocationMetadata) :
    InterpState → List BuiltinServiceEffect → InterpState × List Effect
  | s, [] => (s, [])
  | s, eff :: rest =>
      let (s1, e1) := on_built_in_invoker_effect s fid invocationMetadata eff
      let (s2, e2) := built_in_effects_loop fid invocationMetadata s1 rest
      (s2, e1 ++ e2)

/-- CommandInterpreter::try_built_in_invoker_effect: built-in effects for a
non-Invoked status are traced and dropped with no abort. -/
def try_built_in_invoker_effect (s : InterpState) (reader : StateReader)
    (nbisEffects : BuiltinServiceEffects) :
    (Option FullInvocationId × SpanRelation) × InterpState × List Effect :=
  let fid := nbisEffects.fullInvocationId
  match reader.getInvocationStatus (InvocationId.ofFid fid) with
  | .invoked invocationMetadata =>
      let spanRelation := invocationMetadata.journalMetadata.spanContext.asParent
      let (s1, e1) := built_in_effects_loop fid invocationMetadata s
        nbisEffects.effects
      ((some fid, spanRelation), s1, e1)
  | _ => ((some fid, .none), s, [])

/-- CommandInterpreter::on_apply: the single public entry point. -/
def on_apply (codec : EntryCodec) (det : DeterministicServiceInvoker)
    (s : InterpState) (reader : StateReader) (now : Nat) (command : Command) :
    Except InterpError ((Option FullInvocationId × SpanRelation) × InterpState × List Effect) :=
  match command with
  | .invoke serviceInvocation => handle_invoke det s reader serviceInvocation
  | .invocationResponse id entryIndex result =>
      let completion : Completion :=
        { entryIndex := entryIndex, result := result.toCompletionResult }
      let (ret, effs) := handle_completion reader id completion
      .ok (ret, s, effs)
  | .invokerEffect effect =>
      do
        let ((relatedSid, spanRelation), s1, e1) ← try_invoker_effect codec s reader
          effect
        .ok ((some relatedSid, spanRelation), s1, e1)
  | .truncateOutbox index => .ok ((none, .none), s, [.truncateOutbox index])
  | .timer timerValue => on_timer det s reader timerValue
  | .terminateInvocation invocationTermination =>
      try_terminate_invocation s reader invocationTermination now
  | .builtInInvokerEffect builtinServiceEffects =>
      .ok (try_built_in_invoker_effect s reader builtinServiceEffects)
  | .patchState mutation => .ok (handle_external_state_mutation s reader mutation)
  | .announceLeader => .ok ((none, .none), s, [])

/-! Spec-side auxiliary definitions used to state the claims. -/

/-- Outbox sequence numbers occurring in an effect list, in emission order. -/
def outbox_seqs (effs : List Effect) : List Nat :=
  effs.filterMap fun e => match e with
    | .enqueueIntoOutbox n _ => some n
    | _ => none

/-- Child invocations an uncompleted, enrichment-carrying Invoke journal
entry resolves to, in journal order (spec section 4.3, Kill step 2). -/
def kill_targets (journal : List (Nat × JournalEntry)) : List FullInvocationId :=
  journal.filterMap fun p => match p.2 with
    | .entry e => match e.header with
      | .invoke false (some er) =>
          some (FullInvocationId.new er.serviceName er.serviceKey er.invocationUuid)
      | _ => none
    | _ => none

/-- Outbox enqueue effects of a run of kill terminations starting at a
given sequence number (spec section 4.3, Kill step 2). -/
def outbox_kill_effects (start : Nat) : List FullInvocationId → List Effect
  | [] => []
  | f :: rest =>
      .enqueueIntoOutbox start (.invocationTermination (InvocationTermination.killOf f))
        :: outbox_kill_effects (start + 1) rest

/-- Journal indices holding an unfinished Awakeable, GetState or Sleep
entry: exactly the leaves the cancellation walker completes with a
canceled result (spec section 4.3, Cancel step 1). -/
def cancellable_leaf_indices (journal : List (Nat × JournalEntry)) : List Nat :=
  journal.filterMap fun p => match p.2 with
    | .entry e => match e.header with
      | .awakeable false => some p.1
      | .getState false => some p.1
      | .sleep false => some p.1
      | _ => none
    | _ => none

/-- Multi-command run: apply commands in order, each against its own state
snapshot and clock reading, accumulating the effects of the successfully
applied commands; an interpreter error aborts the partition processor
(partition.rs propagates it out of the run loop), ending the sequence. -/
def apply_sequence (codec : EntryCodec) (det : DeterministicServiceInvoker) :
    InterpState → List (StateReader × Nat × Command) → InterpState × List Effect
  | s, [] => (s, [])
  | s, (reader, now, command) :: rest =>
    match on_apply codec det s reader now command with
    | .ok (_, s1, effs) =>
        let (s2, e2) := apply_sequence codec det s1 rest
        (s2, effs ++ e2)
    | .error _ => (s, [])

/-! Concrete fixtures used by the witnesses. -/

/-- Sample span context. -/
def sampleSpan : SpanCtx := ⟨"span-ctx", none⟩

/-- Sample service id. -/
def sampleSid : ServiceId := ⟨"svc", "k"⟩

/-- Sample full invocation id. -/
def sampleFid : FullInvocationId := ⟨sampleSid, 7⟩

/-- Sample invocation id. -/
def sampleIid : InvocationId := InvocationId.ofFid sampleFid

/-- Sample invocation metadata with journal length 3 and no response sink. -/
def sampleMeta : InvocationMetadata := ⟨sampleSid, "m", none, ⟨3, sampleSpan⟩, 100⟩

/-- Sample service invocation without execution time and without sink. -/
def sampleSi : ServiceInvocation :=
  ⟨sampleFid, "m", "arg", .ingress, none, sampleSpan, [], none⟩

/-- State reader whose state is empty. -/
def emptyReader : StateReader where
  getVirtualObjectStatus := fun _ => .unlocked
  getInvocationStatus := fun _ => .free
  getInboxedInvocation := fun _ => none
  isEntryResumable := fun _ _ => false
  loadState := fun _ _ => none
  loadStateKeys := fun _ => []
  loadCompletionResult := fun _ _ => none
  getJournal := fun _ _ => []

/-- State reader that reports the sample invocation as Invoked. -/
def invokedReader : StateReader :=
  { emptyReader with getInvocationStatus := fun _ => .invoked sampleMeta }

/-- State reader that reports the sample invocation as inboxed. -/
def inboxedReader : StateReader :=
  { emptyReader with getInboxedInvocation := fun _ => some ⟨5, sampleSi⟩ }

/-- Deterministic built-in invoker supporting no service. -/
def sampleDet : DeterministicServiceInvoker where
  isSupported := fun _ => false
  invoke := fun _ _ _ _ _ => []

/-- Sample counters and partition range. -/
def sampleState : InterpState := ⟨0, 0, 0, 1000⟩

/-- State reader with an Invoked sample invocation and a pre-stored
completion result for every entry. -/
def awakeableReader : StateReader :=
  { invokedReader with loadCompletionResult := fun _ _ => some (.success "w") }

/-- Failure error selected by the termination flavor (spec section 7). -/
def termination_error : TerminationFlavor → InvocationError
  | .kill => KILLED_INVOCATION_ERROR
  | .cancel => CANCELED_INVOCATION_ERROR

/-- Sample enrichment result pointing at a child invocation. -/
def sampleEnrichment : InvokeEnrichmentResult := ⟨21, "k2", "svc2", sampleSpan⟩

/-- Sample invoke request of the child. -/
def sampleRequest : InvokeRequest := ⟨"svc2", "m2", "p"⟩

/-- Metadata with journal length 4 used by the kill/cancel witnesses. -/
def killMeta : InvocationMetadata := ⟨sampleSid, "m", none, ⟨4, sampleSpan⟩, 100⟩

/-- Journal with one completed Invoke, one live Invoke, one background
invoke and one stored completion. -/
def killJournal : List (Nat × JournalEntry) :=
  [(0, .entry ⟨.invoke true (some sampleEnrichment), .invoke sampleRequest, none⟩),
   (1, .entry ⟨.invoke false (some sampleEnrichment), .invoke sampleRequest, none⟩),
   (2, .entry ⟨.backgroundInvoke sampleEnrichment,
        .backgroundInvoke sampleRequest 0, none⟩),
   (3, .completion .empty)]

/-- Reader with the sample invocation Invoked over killJournal. -/
def killReader : StateReader :=
  { emptyReader with
    getInvocationStatus := fun _ => .invoked killMeta,
    getJournal := fun _ _ => killJournal }

/-- Metadata with journal length 5 used by the cancel witness. -/
def cancelMeta : InvocationMetadata := ⟨sampleSid, "m", none, ⟨5, sampleSpan⟩, 100⟩

/-- Journal holding one unfinished sleep entry at index 4 waking at 77. -/
def cancelJournal : List (Nat × JournalEntry) :=
  [(4, .entry ⟨.sleep false, .sleep 77, none⟩)]

/-- Reader with the sample invocation Suspended waiting for entry 4. -/
def cancelReader : StateReader :=
  { emptyReader with
    getInvocationStatus := fun _ => .suspended cancelMeta [4],
    getJournal := fun _ _ => cancelJournal }

/-- The outbox sequence numbers of an effect list are exactly the
contiguous range from a to b (and b records their count from a). -/
def OutboxContiguous (a b : Nat) (effs : List Effect) : Prop :=
  b = a + (outbox_seqs effs).length ∧
  outbox_seqs effs = List.range' a (outbox_seqs effs).length

deriving instance DecidableEq for Except

/-! Helper lemmas. -/

/-- Bind on a successful Except reduces. -/
@[simp] theorem except_bind_ok {α β : Type} (a : α)
    (f : α → Except InterpError β) : (Except.ok a >>= f) = f a := rfl

/-- Bind on a failed Except propagates the error. -/
@[simp] theorem except_bind_error {α β : Type} (e : InterpError)
    (f : α → Except InterpError β) :
    ((Except.error e : Except InterpError α) >>= f) = .error e := rfl

/-- read_invocation_status queries the status at the downgraded id. -/
theorem read_invocation_status_eq (reader : StateReader)
    (maybeFid : MaybeFullInvocationId) :
    read_invocation_status reader maybeFid =
      reader.getInvocationStatus maybeFid.toInvocationId := by
  cases maybeFid <;> rfl

/-! Claim theorems. -/

/-- C6: for every InvokerEffect command whose target invocation has a
stored status other than Invoked, on_apply succeeds and emits exactly one
effect, abort_invocation for that invocation's full id. -/
theorem claim_C6 (codec : EntryCodec) (det : DeterministicServiceInvoker)
    (s : InterpState) (reader : StateReader) (now : Nat) (effect : InvokerEffect)
    (h : ∀ m, reader.getInvocationStatus
      (InvocationId.ofFid effect.fullInvocationId) ≠ .invoked m) :
    on_apply codec det s reader now (.invokerEffect effect) =
      .ok ((some effect.fullInvocationId, .none), s,
        [.abortInvocation effect.fullInvocationId]) := by
  have hti : try_invoker_effect codec s reader effect =
      .ok ((effect.fullInvocationId, .none), s,
        [.abortInvocation effect.fullInvocationId]) := by
    simp only [try_invoker_effect]
  simp [on_apply, hti]

/-- Witness for C6 at a concrete Free-status reader. -/
theorem claim_C6_witness :
    on_apply identityCodec sampleDet sampleState emptyReader 0
        (.invokerEffect ⟨sampleFid, .End⟩) =
      .ok ((some sampleFid, .none), sampleState, [.abortInvocation sampleFid]) :=
  claim_C6 identityCodec sampleDet sampleState emptyReader 0 ⟨sampleFid, .End⟩
    (fun m h => by simp [emptyReader] at h)

/-- C8: an InvokerEffect::Suspended with an empty waiting_for set, applied
while the invocation is Invoked, fails the invariant assertion instead of
being processed. -/
theorem claim_C8 (codec : EntryCodec) (det : DeterministicServiceInvoker)
    (s : InterpState) (reader : StateReader) (now : Nat) (fid : FullInvocationId)
    (meta : InvocationMetadata)
    (h : reader.getInvocationStatus (InvocationId.ofFid fid) = .invoked meta) :
    on_apply codec det s reader now (.invokerEffect ⟨fid, .suspended []⟩) =
      .error (.assertionFailed
        "Expecting at least one entry on which the invocation is waiting.") := by
  simp [on_apply, try_invoker_effect, h, on_invoker_effect]

/-- Witness for C8 at a concrete Invoked-status reader. -/
theorem claim_C8_witness :
    invokedReader.getInvocationStatus (InvocationId.ofFid sampleFid) =
        .invoked sampleMeta ∧
    on_apply identityCodec sampleDet sampleState invokedReader 0
        (.invokerEffect ⟨sampleFid, .suspended []⟩) =
      .error (.assertionFailed
        "Expecting at least one entry on which the invocation is waiting.") :=
  ⟨rfl, claim_C8 identityCodec sampleDet sampleState invokedReader 0 sampleFid
    sampleMeta rfl⟩

/-- C10: an InvocationResponse for an invocation whose status is neither
Invoked nor Suspended emits no effects and returns (None, SpanRelation::None);
the completion is dropped. -/
theorem claim_C10 (codec : EntryCodec) (det : DeterministicServiceInvoker)
    (s : InterpState) (reader : StateReader) (now : Nat)
    (id : MaybeFullInvocationId) (entryIndex : Nat) (result : ResponseResult)
    (h1 : ∀ m, reader.getInvocationStatus id.toInvocationId ≠ .invoked m)
    (h2 : ∀ m w, reader.getInvocationStatus id.toInvocationId ≠ .suspended m w) :
    on_apply codec det s reader now (.invocationResponse id entryIndex result) =
      .ok ((none, .none), s, []) := by
  have hc : handle_completion reader id
      ⟨entryIndex, result.toCompletionResult⟩ = ((none, .none), []) := by
    simp only [handle_completion, read_invocation_status_eq]
  simp [on_apply, hc]

/-- Witness for C10 at a concrete Free-status reader. -/
theorem claim_C10_witness :
    on_apply identityCodec sampleDet sampleState emptyReader 0
        (.invocationResponse (.invocationOnly sampleIid) 2 (.success "v")) =
      .ok ((none, .none), sampleState, []) :=
  claim_C10 identityCodec sampleDet sampleState emptyReader 0
    (.invocationOnly sampleIid) 2 (.success "v")
    (fun m h => by simp [emptyReader] at h)
    (fun m w h => by simp [emptyReader] at h)

/-- C2: a JournalEntry invoker effect applied while the invocation is
Invoked fails fast unless its index equals the stored journal length; when
it proceeds it emits append_journal_entry at exactly that index followed by
send_stored_ack_to_invoker, for every entry header kind. -/
theorem claim_C2 (codec : EntryCodec) (det : DeterministicServiceInvoker)
    (s : InterpState) (reader : StateReader) (now : Nat) (fid : FullInvocationId)
    (entryIndex : Nat) (entry : EnrichedRawEntry) (meta : InvocationMetadata)
    (h : reader.getInvocationStatus (InvocationId.ofFid fid) = .invoked meta) :
    (entryIndex ≠ meta.journalMetadata.length →
      on_apply codec det s reader now
          (.invokerEffect ⟨fid, .journalEntry entryIndex entry⟩) =
        .error (.assertionFailed "Expect to receive next journal entry")) ∧
    (∀ ret s1 effs,
      on_apply codec det s reader now
          (.invokerEffect ⟨fid, .journalEntry entryIndex entry⟩) =
        .ok (ret, s1, effs) →
      entryIndex = meta.journalMetadata.length ∧
      ∃ pre entry1, effs = pre ++
        [.appendJournalEntry (InvocationId.ofFid fid) (.invoked meta) entryIndex entry1,
         .sendStoredAckToInvoker fid entryIndex]) := by
  constructor
  · intro hne
    simp [on_apply, try_invoker_effect, h, on_invoker_effect,
      handle_journal_entry, hne]
  · intro ret s1 effs hrun
    by_cases hlen : entryIndex = meta.journalMetadata.length
    · refine ⟨hlen, ?_⟩
      subst hlen
      cases hbody : handle_journal_entry_body codec s reader fid
          meta.journalMetadata.length entry meta with
      | error e =>
        rw [on_apply] at hrun
        simp [try_invoker_effect, h, on_invoker_effect, handle_journal_entry,
          hbody] at hrun
      | ok v =>
        obtain ⟨s2, e1, je1⟩ := v
        rw [on_apply] at hrun
        simp [try_invoker_effect, h, on_invoker_effect, handle_journal_entry,
          hbody] at hrun
        exact ⟨e1, je1, hrun.2.2.symm⟩
    · exfalso
      rw [on_apply] at hrun
      simp [try_invoker_effect, h, on_invoker_effect, handle_journal_entry,
        hlen] at hrun

/-- Witness for C2: an Input entry at the expected index 3. -/
theorem claim_C2_witness :
    invokedReader.getInvocationStatus (InvocationId.ofFid sampleFid) =
        .invoked sampleMeta ∧
    ((3 ≠ sampleMeta.journalMetadata.length →
      on_apply identityCodec sampleDet sampleState invokedReader 0
          (.invokerEffect ⟨sampleFid, .journalEntry 3 ⟨.input, .input "v", none⟩⟩) =
        .error (.assertionFailed "Expect to receive next journal entry")) ∧
    (∀ ret s1 effs,
      on_apply identityCodec sampleDet sampleState invokedReader 0
          (.invokerEffect ⟨sampleFid, .journalEntry 3 ⟨.input, .input "v", none⟩⟩) =
        .ok (ret, s1, effs) →
      3 = sampleMeta.journalMetadata.length ∧
      ∃ pre entry1, effs = pre ++
        [.appendJournalEntry (InvocationId.ofFid sampleFid) (.invoked sampleMeta) 3
          entry1,
         .sendStoredAckToInvoker sampleFid 3])) :=
  ⟨rfl, claim_C2 identityCodec sampleDet sampleState invokedReader 0 sampleFid 3
    ⟨.input, .input "v", none⟩ sampleMeta rfl⟩

/-- C9: an Awakeable journal entry delivered while the invocation is
Invoked: a pre-stored completion is written into the raw entry and a
forward_completion carrying it is emitted before the entry is appended; if
no completion is stored, no forward_completion is emitted. -/
theorem claim_C9 (codec : EntryCodec) (det : DeterministicServiceInvoker)
    (s : InterpState) (reader : StateReader) (now : Nat) (fid : FullInvocationId)
    (payload : Entry) (wc : Option CompletionResult) (entryIndex : Nat)
    (meta : InvocationMetadata)
    (h : reader.getInvocationStatus (InvocationId.ofFid fid) = .invoked meta)
    (hidx : entryIndex = meta.journalMetadata.length) :
    (∀ r entry1,
      reader.loadCompletionResult (InvocationId.ofFid fid) entryIndex = some r →
      codec.writeCompletion ⟨.awakeable false, payload, wc⟩ r = .ok entry1 →
      on_apply codec det s reader now
          (.invokerEffect ⟨fid, .journalEntry entryIndex
            ⟨.awakeable false, payload, wc⟩⟩) =
        .ok ((some fid, meta.journalMetadata.spanContext.asParent), s,
          [.forwardCompletion fid (Completion.new entryIndex r),
           .appendJournalEntry (InvocationId.ofFid fid) (.invoked meta) entryIndex
             entry1,
           .sendStoredAckToInvoker fid entryIndex])) ∧
    (reader.loadCompletionResult (InvocationId.ofFid fid) entryIndex = none →
      on_apply codec det s reader now
          (.invokerEffect ⟨fid, .journalEntry entryIndex
            ⟨.awakeable false, payload, wc⟩⟩) =
        .ok ((some fid, meta.journalMetadata.spanContext.asParent), s,
          [.appendJournalEntry (InvocationId.ofFid fid) (.invoked meta) entryIndex
            ⟨.awakeable false, payload, wc⟩,
           .sendStoredAckToInvoker fid entryIndex])) := by
  subst hidx
  constructor
  · intro r entry1 hload hwrite
    simp [on_apply, try_invoker_effect, h, on_invoker_effect,
      handle_journal_entry, handle_journal_entry_body, hload, hwrite]
  · intro hload
    simp [on_apply, try_invoker_effect, h, on_invoker_effect,
      handle_journal_entry, handle_journal_entry_body, hload]

/-- Witness for C9: a stored Success completion is spliced and forwarded. -/
theorem claim_C9_witness :
    awakeableReader.getInvocationStatus (InvocationId.ofFid sampleFid) =
        .invoked sampleMeta ∧
    ((∀ r entry1,
      awakeableReader.loadCompletionResult (InvocationId.ofFid sampleFid) 3 = some r →
      identityCodec.writeCompletion ⟨.awakeable false, .awakeable, none⟩ r =
        .ok entry1 →
      on_apply identityCodec sampleDet sampleState awakeableReader 0
          (.invokerEffect ⟨sampleFid, .journalEntry 3
            ⟨.awakeable false, .awakeable, none⟩⟩) =
        .ok ((some sampleFid, sampleMeta.journalMetadata.spanContext.asParent),
          sampleState,
          [.forwardCompletion sampleFid (Completion.new 3 r),
           .appendJournalEntry (InvocationId.ofFid sampleFid) (.invoked sampleMeta) 3
             entry1,
           .sendStoredAckToInvoker sampleFid 3])) ∧
    (awakeableReader.loadCompletionResult (InvocationId.ofFid sampleFid) 3 = none →
      on_apply identityCodec sampleDet sampleState awakeableReader 0
          (.invokerEffect ⟨sampleFid, .journalEntry 3
            ⟨.awakeable false, .awakeable, none⟩⟩) =
        .ok ((some sampleFid, sampleMeta.journalMetadata.spanContext.asParent),
          sampleState,
          [.appendJournalEntry (InvocationId.ofFid sampleFid) (.invoked sampleMeta) 3
            ⟨.awakeable false, .awakeable, none⟩,
           .sendStoredAckToInvoker sampleFid 3]))) :=
  ⟨rfl, claim_C9 identityCodec sampleDet sampleState awakeableReader 0 sampleFid
    .awakeable none 3 sampleMeta rfl rfl⟩

/-- A failure response never contains an abort_invocation effect. -/
theorem abort_not_mem_failure_response (s : InterpState) (fid : FullInvocationId)
    (sink : Option ServiceInvocationResponseSink) (error : InvocationError)
    (g : FullInvocationId) :
    Effect.abortInvocation g ∉ (try_send_failure_response s fid sink error).2 := by
  cases sink with
  | none => simp [try_send_failure_response]
  | some sk =>
      cases sk <;>
        simp [try_send_failure_response, send_response, create_response_message,
          handle_outgoing_message, ingress_response]

/-- C5: a Kill or Cancel of an invocation that is neither Invoked nor
Suspended: if it is found in the inbox, the interpreter emits the failure
response on its sink, the invocation-result trace and delete_inbox_entry,
and no abort_invocation; if it is not in the inbox, abort_invocation is
emitted exactly when a full invocation id was provided. -/
theorem claim_C5 (codec : EntryCodec) (det : DeterministicServiceInvoker)
    (s : InterpState) (reader : StateReader) (now : Nat)
    (maybeFid : MaybeFullInvocationId) (flavor : TerminationFlavor)
    (h1 : ∀ m, reader.getInvocationStatus maybeFid.toInvocationId ≠ .invoked m)
    (h2 : ∀ m w, reader.getInvocationStatus maybeFid.toInvocationId ≠ .suspended m w) :
    (∀ entry, reader.getInboxedInvocation maybeFid = some entry →
      on_apply codec det s reader now (.terminateInvocation ⟨maybeFid, flavor⟩) =
        .ok ((some entry.invocation.fid, entry.invocation.spanContext.asParent),
          (try_send_failure_response s entry.invocation.fid
            entry.invocation.responseSink (termination_error flavor)).1,
          (try_send_failure_response s entry.invocation.fid
            entry.invocation.responseSink (termination_error flavor)).2 ++
          [.traceInvocationResult entry.invocation.fid entry.invocation.methodName
            entry.invocation.spanContext now
            (.err (termination_error flavor).code (termination_error flavor).message),
           .deleteInboxEntry entry.invocation.fid.serviceId
             entry.inboxSequenceNumber]) ∧
      (∀ g, Effect.abortInvocation g ∉
        (try_send_failure_response s entry.invocation.fid
          entry.invocation.responseSink (termination_error flavor)).2 ++
        [.traceInvocationResult entry.invocation.fid entry.invocation.methodName
          entry.invocation.spanContext now
          (.err (termination_error flavor).code (termination_error flavor).message),
         .deleteInboxEntry entry.invocation.fid.serviceId
           entry.inboxSequenceNumber])) ∧
    (reader.getInboxedInvocation maybeFid = none →
      (∀ fid, maybeFid = .full fid →
        on_apply codec det s reader now (.terminateInvocation ⟨maybeFid, flavor⟩) =
          .ok ((some fid, .none), s, [.abortInvocation fid])) ∧
      (∀ iid, maybeFid = .invocationOnly iid →
        on_apply codec det s reader now (.terminateInvocation ⟨maybeFid, flavor⟩) =
          .ok ((none, .none), s, []))) := by
  have key : on_apply codec det s reader now
      (.terminateInvocation ⟨maybeFid, flavor⟩) =
      .ok (try_terminate_inboxed_invocation s reader flavor maybeFid now) := by
    cases flavor
    · simp only [on_apply, try_terminate_invocation, try_kill_invocation]
    · simp only [on_apply, try_terminate_invocation, try_cancel_invocation]
  refine ⟨?_, ?_⟩
  · intro entry hsome
    refine ⟨?_, ?_⟩
    · rw [key]
      cases flavor <;>
        simp [try_terminate_inboxed_invocation, hsome,
          terminate_inboxed_invocation, termination_error,
          notify_invocation_result]
    · intro g
      simp only [List.mem_append, List.mem_cons, List.not_mem_nil]
      push_neg
      refine ⟨abort_not_mem_failure_response _ _ _ _ _, ?_, ?_, ?_⟩ <;> simp
  · intro hnone
    refine ⟨?_, ?_⟩
    · intro fid hfid
      subst hfid
      rw [key]
      simp [try_terminate_inboxed_invocation, hnone]
    · intro iid hiid
      subst hiid
      rw [key]
      simp [try_terminate_inboxed_invocation, hnone]

/-- Witness for C5: cancel of an inboxed invocation addressed by a plain
invocation id. -/
theorem claim_C5_witness :
    (∀ m, inboxedReader.getInvocationStatus
      (MaybeFullInvocationId.invocationOnly sampleIid).toInvocationId ≠
        .invoked m) ∧
    ((∀ entry, inboxedReader.getInboxedInvocation
        (.invocationOnly sampleIid) = some entry →
      on_apply identityCodec sampleDet sampleState inboxedReader 42
          (.terminateInvocation ⟨.invocationOnly sampleIid, .cancel⟩) =
        .ok ((some entry.invocation.fid, entry.invocation.spanContext.asParent),
          (try_send_failure_response sampleState entry.invocation.fid
            entry.invocation.responseSink (termination_error .cancel)).1,
          (try_send_failure_response sampleState entry.invocation.fid
            entry.invocation.responseSink (termination_error .cancel)).2 ++
          [.traceInvocationResult entry.invocation.fid entry.invocation.methodName
            entry.invocation.spanContext 42
            (.err (termination_error .cancel).code
              (termination_error .cancel).message),
           .deleteInboxEntry entry.invocation.fid.serviceId
             entry.inboxSequenceNumber]) ∧
      (∀ g, Effect.abortInvocation g ∉
        (try_send_failure_response sampleState entry.invocation.fid
          entry.invocation.responseSink (termination_error .cancel)).2 ++
        [.traceInvocationResult entry.invocation.fid entry.invocation.methodName
          entry.invocation.spanContext 42
          (.err (termination_error .cancel).code
            (termination_error .cancel).message),
         .deleteInboxEntry entry.invocation.fid.serviceId
           entry.inboxSequenceNumber])) ∧
    (inboxedReader.getInboxedInvocation (.invocationOnly sampleIid) = none →
      (∀ fid, MaybeFullInvocationId.invocationOnly sampleIid = .full fid →
        on_apply identityCodec sampleDet sampleState inboxedReader 42
            (.terminateInvocation ⟨.invocationOnly sampleIid, .cancel⟩) =
          .ok ((some fid, .none), sampleState, [.abortInvocation fid])) ∧
      (∀ iid, MaybeFullInvocationId.invocationOnly sampleIid =
          .invocationOnly iid →
        on_apply identityCodec sampleDet sampleState inboxedReader 42
            (.terminateInvocation ⟨.invocationOnly sampleIid, .cancel⟩) =
          .ok ((none, .none), sampleState, [])))) :=
  ⟨fun m h => by simp [inboxedReader, emptyReader] at h,
   claim_C5 identityCodec sampleDet sampleState inboxedReader 42
    (.invocationOnly sampleIid) .cancel
    (fun m h => by simp [inboxedReader, emptyReader] at h)
    (fun m w h => by simp [inboxedReader, emptyReader] at h)⟩

/-- The kill journal walk enqueues exactly one outbox kill termination per
uncompleted enrichment-carrying Invoke entry, numbered contiguously from
the current outbox counter. -/
theorem kill_child_loop_spec (l : List (Nat × JournalEntry)) (s : InterpState) :
    kill_child_loop s l =
      ({ s with outboxSeqNumber := s.outboxSeqNumber + (kill_targets l).length },
        outbox_kill_effects s.outboxSeqNumber (kill_targets l)) := by
  induction l generalizing s with
  | nil => rfl
  | cons p rest ih =>
    obtain ⟨idx, je⟩ := p
    cases je with
    | completion r =>
        simp [kill_child_loop, kill_targets, ih]
    | entry e =>
        cases hh : e.header
        case invoke b enr =>
          cases b <;> cases enr <;>
            simp [kill_child_loop, hh, kill_targets, outbox_kill_effects, ih,
              handle_outgoing_message, Nat.add_assoc, Nat.add_comm,
              Nat.add_left_comm]
        all_goals
          simp [kill_child_loop, hh, kill_targets, outbox_kill_effects, ih]

/-- C3: a Kill of an Invoked or Suspended invocation enqueues an outbox
kill termination for exactly the uncompleted enrichment-carrying Invoke
journal entries (none for BackgroundInvoke or completed entries), then
fails the invocation with KILLED_INVOCATION_ERROR (failure response on its
sink if any, invocation-result trace, drop journal and pop inbox) and
emits abort_invocation, in that order. -/
theorem claim_C3 (codec : EntryCodec) (det : DeterministicServiceInvoker)
    (s : InterpState) (reader : StateReader) (now : Nat)
    (maybeFid : MaybeFullInvocationId) (meta : InvocationMetadata)
    (hst : reader.getInvocationStatus maybeFid.toInvocationId = .invoked meta ∨
      ∃ w, reader.getInvocationStatus maybeFid.toInvocationId = .suspended meta w) :
    on_apply codec det s reader now (.terminateInvocation ⟨maybeFid, .kill⟩) =
      .ok ((some (FullInvocationId.combine meta.serviceId maybeFid.toInvocationId),
            meta.journalMetadata.spanContext.asParent),
        (try_send_failure_response
          { s with outboxSeqNumber := s.outboxSeqNumber +
              (kill_targets (reader.getJournal
                (InvocationId.ofFid
                  (FullInvocationId.combine meta.serviceId maybeFid.toInvocationId))
                meta.journalMetadata.length)).length }
          (FullInvocationId.combine meta.serviceId maybeFid.toInvocationId)
          meta.responseSink KILLED_INVOCATION_ERROR).1,
        outbox_kill_effects s.outboxSeqNumber
          (kill_targets (reader.getJournal
            (InvocationId.ofFid
              (FullInvocationId.combine meta.serviceId maybeFid.toInvocationId))
            meta.journalMetadata.length))
        ++ (try_send_failure_response
            { s with outboxSeqNumber := s.outboxSeqNumber +
                (kill_targets (reader.getJournal
                  (InvocationId.ofFid
                    (FullInvocationId.combine meta.serviceId maybeFid.toInvocationId))
                  meta.journalMetadata.length)).length }
            (FullInvocationId.combine meta.serviceId maybeFid.toInvocationId)
            meta.responseSink KILLED_INVOCATION_ERROR).2
        ++ [.traceInvocationResult
              (FullInvocationId.combine meta.serviceId maybeFid.toInvocationId)
              meta.method meta.journalMetadata.spanContext meta.creationTime
              (.err KILLED_INVOCATION_ERROR.code KILLED_INVOCATION_ERROR.message),
            .dropJournalAndPopInbox
              (FullInvocationId.combine meta.serviceId maybeFid.toInvocationId)
              meta.journalMetadata.length,
            .abortInvocation
              (FullInvocationId.combine meta.serviceId maybeFid.toInvocationId)]) := by
  rcases hst with hst | ⟨w, hst⟩ <;>
    simp [on_apply, try_terminate_invocation, try_kill_invocation, hst,
      kill_invocation, kill_child_invocations, kill_child_loop_spec,
      fail_invocation, notify_invocation_result, end_invocation_lifecycle]

/-- Witness for C3: killing the sample invocation terminates exactly the
one live child at outbox sequence 0. -/
theorem claim_C3_witness :
    (killReader.getInvocationStatus
        (MaybeFullInvocationId.invocationOnly sampleIid).toInvocationId =
          .invoked killMeta ∨
      ∃ w, killReader.getInvocationStatus
        (MaybeFullInvocationId.invocationOnly sampleIid).toInvocationId =
          .suspended killMeta w) ∧
    on_apply identityCodec sampleDet sampleState killReader 0
        (.terminateInvocation ⟨.invocationOnly sampleIid, .kill⟩) =
      .ok ((some (FullInvocationId.combine killMeta.serviceId
              (MaybeFullInvocationId.invocationOnly sampleIid).toInvocationId),
            killMeta.journalMetadata.spanContext.asParent),
        (try_send_failure_response
          { sampleState with outboxSeqNumber := sampleState.outboxSeqNumber +
              (kill_targets (killReader.getJournal
                (InvocationId.ofFid
                  (FullInvocationId.combine killMeta.serviceId
                    (MaybeFullInvocationId.invocationOnly sampleIid).toInvocationId))
                killMeta.journalMetadata.length)).length }
          (FullInvocationId.combine killMeta.serviceId
            (MaybeFullInvocationId.invocationOnly sampleIid).toInvocationId)
          killMeta.responseSink KILLED_INVOCATION_ERROR).1,
        outbox_kill_effects sampleState.outboxSeqNumber
          (kill_targets (killReader.getJournal
            (InvocationId.ofFid
              (FullInvocationId.combine killMeta.serviceId
                (MaybeFullInvocationId.invocationOnly sampleIid).toInvocationId))
            killMeta.journalMetadata.length))
        ++ (try_send_failure_response
            { sampleState with outboxSeqNumber := sampleState.outboxSeqNumber +
                (kill_targets (killReader.getJournal
                  (InvocationId.ofFid
                    (FullInvocationId.combine killMeta.serviceId
                      (MaybeFullInvocationId.invocationOnly
                        sampleIid).toInvocationId))
                  killMeta.journalMetadata.length)).length }
            (FullInvocationId.combine killMeta.serviceId
              (MaybeFullInvocationId.invocationOnly sampleIid).toInvocationId)
            killMeta.responseSink KILLED_INVOCATION_ERROR).2
        ++ [.traceInvocationResult
              (FullInvocationId.combine killMeta.serviceId
                (MaybeFullInvocationId.invocationOnly sampleIid).toInvocationId)
              killMeta.method killMeta.journalMetadata.spanContext
              killMeta.creationTime
              (.err KILLED_INVOCATION_ERROR.code KILLED_INVOCATION_ERROR.message),
            .dropJournalAndPopInbox
              (FullInvocationId.combine killMeta.serviceId
                (MaybeFullInvocationId.invocationOnly sampleIid).toInvocationId)
              killMeta.journalMetadata.length,
            .abortInvocation
              (FullInvocationId.combine killMeta.serviceId
                (MaybeFullInvocationId.invocationOnly sampleIid).toInvocationId)]) :=
  ⟨Or.inl rfl,
   claim_C3 identityCodec sampleDet sampleState killReader 0
    (.invocationOnly sampleIid) killMeta (Or.inl rfl)⟩

/-- Membership in the cancellable leaves is preserved by consing a journal
record in front. -/
theorem cancellable_mem_cons (i : Nat) (p : Nat × JournalEntry)
    (rest : List (Nat × JournalEntry)) (h : i ∈ cancellable_leaf_indices rest) :
    i ∈ cancellable_leaf_indices (p :: rest) := by
  simp only [cancellable_leaf_indices, List.filterMap_cons] at h ⊢
  split
  · exact h
  · exact List.mem_cons_of_mem _ h

/-- Canceling a journal entry always stores the canceled completion. -/
theorem cancel_entry_with_store (fid : FullInvocationId)
    (proj : InvocationStatusProjection) (idx : Nat) (canceled : CompletionResult) :
    Effect.storeCompletion (InvocationId.ofFid fid) (Completion.new idx canceled) ∈
      (cancel_journal_entry_with fid proj idx canceled).2 := by
  cases proj <;>
    simp [cancel_journal_entry_with, handle_completion_for_invoked,
      handle_completion_for_suspended]

/-- Canceling a journal entry never emits resume_service by itself. -/
theorem cancel_entry_with_no_resume (fid : FullInvocationId)
    (proj : InvocationStatusProjection) (idx : Nat) (canceled : CompletionResult)
    (iid : InvocationId) (m : InvocationMetadata) :
    Effect.resumeService iid m ∉ (cancel_journal_entry_with fid proj idx canceled).2 := by
  cases proj <;>
    simp [cancel_journal_entry_with, handle_completion_for_invoked,
      handle_completion_for_suspended]

/-- For a suspended projection the flag reports whether the canceled index
was awaited. -/
theorem cancel_entry_with_flag (fid : FullInvocationId) (idx : Nat)
    (canceled : CompletionResult) (w : List Nat) :
    (cancel_journal_entry_with fid (.suspended w) idx canceled).1 =
      w.contains idx := rfl

set_option maxHeartbeats 2000000 in
/-- Characterization of a successful cancellation walk: every unfinished
Awakeable/GetState/Sleep leaf gets a canceled completion stored, every
unfinished Sleep leaf additionally gets its timer deleted, the resume flag
is set exactly when a canceled index was awaited, and the walk itself never
emits resume_service. -/
theorem cancel_journal_loop_spec (fid : FullInvocationId)
    (proj : InvocationStatusProjection) (canceled : CompletionResult)
    (l : List (Nat × JournalEntry)) :
    ∀ (s : InterpState) (r : Bool) (s1 : InterpState) (effs : List Effect),
    cancel_journal_loop fid proj canceled s l = .ok (r, s1, effs) →
    ((∀ idx, idx ∈ cancellable_leaf_indices l →
        Effect.storeCompletion (InvocationId.ofFid fid)
          (Completion.new idx canceled) ∈ effs) ∧
     (∀ idx re, (idx, JournalEntry.entry re) ∈ l → re.header = .sleep false →
        ∃ wake, re.entry = .sleep wake ∧
          Effect.deleteTimer ⟨fid.invocationUuid, idx, wake⟩ ∈ effs) ∧
     (∀ w, proj = .suspended w →
        (r = true ↔ ∃ idx, idx ∈ cancellable_leaf_indices l ∧ w.contains idx)) ∧
     (∀ iid m, Effect.resumeService iid m ∉ effs)) := by
  induction l with
  | nil =>
    intro s r s1 effs h
    simp [cancel_journal_loop] at h
    obtain ⟨hr, _, he⟩ := h
    subst hr; subst he
    simp [cancellable_leaf_indices]
  | cons p rest ih =>
    obtain ⟨idx, je⟩ := p
    intro s r s1 effs h
    cases je with
    | completion cr =>
      rw [cancel_journal_loop] at h
      obtain ⟨h1, h2, h3, h4⟩ := ih s r s1 effs h
      refine ⟨?_, ?_, ?_, h4⟩
      · intro i hi
        exact h1 i (by simpa [cancellable_leaf_indices] using hi)
      · intro i re hmem hhd
        rcases List.mem_cons.mp hmem with hc | hc
        · exact absurd hc (by simp)
        · exact h2 i re hc hhd
      · intro w hw
        rw [h3 w hw]
        simp [cancellable_leaf_indices]
    | entry e =>
      cases hh : e.header
      case invoke b enr =>
        cases b with
        | true =>
          simp [cancel_journal_loop, hh, EnrichedEntryHeader.isCompletedFlag] at h
          obtain ⟨h1, h2, h3, h4⟩ := ih s r s1 effs h
          refine ⟨?_, ?_, ?_, h4⟩
          · intro i hi
            exact h1 i (by simpa [cancellable_leaf_indices, hh] using hi)
          · intro i re hmem hhd
            rcases List.mem_cons.mp hmem with hc | hc
            · have hre : re = e := by
                have := congrArg Prod.snd hc
                injection this
              rw [hre, hh] at hhd
              simp at hhd
            · exact h2 i re hc hhd
          · intro w hw
            rw [h3 w hw]
            simp [cancellable_leaf_indices, hh]
        | false =>
          cases enr with
          | none =>
            simp [cancel_journal_loop, hh, EnrichedEntryHeader.isCompletedFlag] at h
          | some er =>
            simp only [cancel_journal_loop, hh] at h
            cases hrest : cancel_journal_loop fid proj canceled
                { s with outboxSeqNumber := s.outboxSeqNumber + 1 } rest with
            | error err =>
              simp [handle_outgoing_message, hrest] at h
            | ok v =>
              obtain ⟨r2, s2, e2⟩ := v
              simp only [handle_outgoing_message, hrest, except_bind_ok,
                Except.ok.injEq, Prod.mk.injEq] at h
              obtain ⟨hr, _, he⟩ := h
              obtain ⟨h1, h2, h3, h4⟩ := ih _ r2 s2 e2 hrest
              subst hr; subst he
              refine ⟨?_, ?_, ?_, ?_⟩
              · intro i hi
                have hi2 : i ∈ cancellable_leaf_indices rest := by
                  simpa [cancellable_leaf_indices, hh] using hi
                exact List.mem_append_right _ (h1 i hi2)
              · intro i re hmem hhd
                rcases List.mem_cons.mp hmem with hc | hc
                · have hre : re = e := by
                    have := congrArg Prod.snd hc
                    injection this
                  rw [hre, hh] at hhd
                  simp at hhd
                · obtain ⟨wake, hwake, hmem2⟩ := h2 i re hc hhd
                  exact ⟨wake, hwake, List.mem_append_right _ hmem2⟩
              · intro w hw
                rw [h3 w hw]
                simp [cancellable_leaf_indices, hh]
              · intro iid m
                simp only [List.mem_append, List.mem_cons, List.not_mem_nil,
                  or_false]
                rintro (hc | hc)
                · cases hc
                · exact h4 iid m hc
      case awakeable b =>
        cases b with
        | true =>
          simp [cancel_journal_loop, hh, EnrichedEntryHeader.isCompletedFlag] at h
          obtain ⟨h1, h2, h3, h4⟩ := ih s r s1 effs h
          refine ⟨?_, ?_, ?_, h4⟩
          · intro i hi
            exact h1 i (by simpa [cancellable_leaf_indices, hh] using hi)
          · intro i re hmem hhd
            rcases List.mem_cons.mp hmem with hc | hc
            · have hre : re = e := by
                have := congrArg Prod.snd hc
                injection this
              rw [hre, hh] at hhd
              simp at hhd
            · exact h2 i re hc hhd
          · intro w hw
            rw [h3 w hw]
            simp [cancellable_leaf_indices, hh]
        | false =>
          rcases hcw : cancel_journal_entry_with fid proj idx canceled with ⟨r1, e1⟩
          simp only [cancel_journal_loop, hh, hcw] at h
          cases hrest : cancel_journal_loop fid proj canceled s rest with
          | error err => simp [hrest] at h
          | ok v =>
            obtain ⟨r2, s2, e2⟩ := v
            simp only [hrest, except_bind_ok, Except.ok.injEq,
              Prod.mk.injEq] at h
            obtain ⟨hr, _, he⟩ := h
            obtain ⟨h1, h2, h3, h4⟩ := ih s r2 s2 e2 hrest
            subst hr; subst he
            refine ⟨?_, ?_, ?_, ?_⟩
            · intro i hi
              rcases (by simpa [cancellable_leaf_indices, hh] using hi :
                  i = idx ∨ i ∈ cancellable_leaf_indices rest) with hi2 | hi2
              · subst hi2
                refine List.mem_append_left _ ?_
                have := cancel_entry_with_store fid proj i canceled
                rw [hcw] at this
                exact this
              · exact List.mem_append_right _ (h1 i hi2)
            · intro i re hmem hhd
              rcases List.mem_cons.mp hmem with hc | hc
              · have hre : re = e := by
                  have := congrArg Prod.snd hc
                  injection this
                rw [hre, hh] at hhd
                simp at hhd
              · obtain ⟨wake, hwake, hmem2⟩ := h2 i re hc hhd
                exact ⟨wake, hwake, List.mem_append_right _ hmem2⟩
            · intro w hw
              have hflag : r1 = w.contains idx := by
                have := cancel_entry_with_flag fid idx canceled w
                rw [hw] at hcw
                rw [hcw] at this
                exact this
              subst hflag
              rw [Bool.or_eq_true, h3 w hw]
              constructor
              · rintro (hc | ⟨i, hi, hic⟩)
                · exact ⟨idx, by simp [cancellable_leaf_indices, hh], hc⟩
                · exact ⟨i, cancellable_mem_cons i _ rest hi, hic⟩
              · rintro ⟨i, hi, hic⟩
                rcases (by simpa [cancellable_leaf_indices, hh] using hi :
                    i = idx ∨ i ∈ cancellable_leaf_indices rest) with hi2 | hi2
                · subst hi2; exact Or.inl hic
                · exact Or.inr ⟨i, hi2, hic⟩
            · intro iid m
              simp only [List.mem_append]
              rintro (hc | hc)
              · have := cancel_entry_with_no_resume fid proj idx canceled iid m
                rw [hcw] at this
                exact this hc
              · exact h4 iid m hc
      case getState b =>
        cases b with
        | true =>
          simp [cancel_journal_loop, hh, EnrichedEntryHeader.isCompletedFlag] at h
          obtain ⟨h1, h2, h3, h4⟩ := ih s r s1 effs h
          refine ⟨?_, ?_, ?_, h4⟩
          · intro i hi
            exact h1 i (by simpa [cancellable_leaf_indices, hh] using hi)
          · intro i re hmem hhd
            rcases List.mem_cons.mp hmem with hc | hc
            · have hre : re = e := by
                have := congrArg Prod.snd hc
                injection this
              rw [hre, hh] at hhd
              simp at hhd
            · exact h2 i re hc hhd
          · intro w hw
            rw [h3 w hw]
            simp [cancellable_leaf_indices, hh]
        | false =>
          rcases hcw : cancel_journal_entry_with fid proj idx canceled with ⟨r1, e1⟩
          simp only [cancel_journal_loop, hh, hcw] at h
          cases hrest : cancel_journal_loop fid proj canceled s rest with
          | error err => simp [hrest] at h
          | ok v =>
            obtain ⟨r2, s2, e2⟩ := v
            simp only [hrest, except_bind_ok, Except.ok.injEq,
              Prod.mk.injEq] at h
            obtain ⟨hr, _, he⟩ := h
            obtain ⟨h1, h2, h3, h4⟩ := ih s r2 s2 e2 hrest
            subst hr; subst he
            refine ⟨?_, ?_, ?_, ?_⟩
            · intro i hi
              rcases (by simpa [cancellable_leaf_indices, hh] using hi :
                  i = idx ∨ i ∈ cancellable_leaf_indices rest) with hi2 | hi2
              · subst hi2
                refine List.mem_append_left _ ?_
                have := cancel_entry_with_store fid proj i canceled
                rw [hcw] at this
                exact this
              · exact List.mem_append_right _ (h1 i hi2)
            · intro i re hmem hhd
              rcases List.mem_cons.mp hmem with hc | hc
              · have hre : re = e := by
                  have := congrArg Prod.snd hc
                  injection this
                rw [hre, hh] at hhd
                simp at hhd
              · obtain ⟨wake, hwake, hmem2⟩ := h2 i re hc hhd
                exact ⟨wake, hwake, List.mem_append_right _ hmem2⟩
            · intro w hw
              have hflag : r1 = w.contains idx := by
                have := cancel_entry_with_flag fid idx canceled w
                rw [hw] at hcw
                rw [hcw] at this
                exact this
              subst hflag
              rw [Bool.or_eq_true, h3 w hw]
              constructor
              · rintro (hc | ⟨i, hi, hic⟩)
                · exact ⟨idx, by simp [cancellable_leaf_indices, hh], hc⟩
                · exact ⟨i, cancellable_mem_cons i _ rest hi, hic⟩
              · rintro ⟨i, hi, hic⟩
                rcases (by simpa [cancellable_leaf_indices, hh] using hi :
                    i = idx ∨ i ∈ cancellable_leaf_indices rest) with hi2 | hi2
                · subst hi2; exact Or.inl hic
                · exact Or.inr ⟨i, hi2, hic⟩
            · intro iid m
              simp only [List.mem_append]
              rintro (hc | hc)
              · have := cancel_entry_with_no_resume fid proj idx canceled iid m
                rw [hcw] at this
                exact this hc
              · exact h4 iid m hc
      case sleep b =>
        cases b with
        | true =>
          simp [cancel_journal_loop, hh, EnrichedEntryHeader.isCompletedFlag] at h
          obtain ⟨h1, h2, h3, h4⟩ := ih s r s1 effs h
          refine ⟨?_, ?_, ?_, h4⟩
          · intro i hi
            exact h1 i (by simpa [cancellable_leaf_indices, hh] using hi)
          · intro i re hmem hhd
            rcases List.mem_cons.mp hmem with hc | hc
            · have hre : re = e := by
                have := congrArg Prod.snd hc
                injection this
              rw [hre, hh] at hhd
              simp at hhd
            · exact h2 i re hc hhd
          · intro w hw
            rw [h3 w hw]
            simp [cancellable_leaf_indices, hh]
        | false =>
          rcases hcw : cancel_journal_entry_with fid proj idx canceled with ⟨r1, e1⟩
          simp only [cancel_journal_loop, hh, hcw, protobufDeserialize,
            except_bind_ok] at h
          cases hpay : e.entry
          case sleep wake =>
            simp only [hpay] at h
            cases hrest : cancel_journal_loop fid proj canceled s rest with
            | error err => simp [hrest] at h
            | ok v =>
              obtain ⟨r2, s2, e2⟩ := v
              simp only [hrest, except_bind_ok, Except.ok.injEq,
                Prod.mk.injEq] at h
              obtain ⟨hr, _, he⟩ := h
              obtain ⟨h1, h2, h3, h4⟩ := ih s r2 s2 e2 hrest
              subst hr; subst he
              refine ⟨?_, ?_, ?_, ?_⟩
              · intro i hi
                rcases (by simpa [cancellable_leaf_indices, hh] using hi :
                    i = idx ∨ i ∈ cancellable_leaf_indices rest) with hi2 | hi2
                · subst hi2
                  refine List.mem_append_left _ (List.mem_append_left _ ?_)
                  have := cancel_entry_with_store fid proj i canceled
                  rw [hcw] at this
                  exact this
                · exact List.mem_append_right _ (h1 i hi2)
              · intro i re hmem hhd
                rcases List.mem_cons.mp hmem with hc | hc
                · have hre : re = e := by
                    have := congrArg Prod.snd hc
                    injection this
                  have hi : i = idx := by
                    have := congrArg Prod.fst hc
                    exact this
                  subst hi
                  refine ⟨wake, by rw [hre, hpay], ?_⟩
                  refine List.mem_append_left _ (List.mem_append_right _ ?_)
                  simp
                · obtain ⟨wake2, hwake2, hmem2⟩ := h2 i re hc hhd
                  exact ⟨wake2, hwake2, List.mem_append_right _ hmem2⟩
              · intro w hw
                have hflag : r1 = w.contains idx := by
                  have := cancel_entry_with_flag fid idx canceled w
                  rw [hw] at hcw
                  rw [hcw] at this
                  exact this
                subst hflag
                rw [Bool.or_eq_true, h3 w hw]
                constructor
                · rintro (hc | ⟨i, hi, hic⟩)
                  · exact ⟨idx, by simp [cancellable_leaf_indices, hh], hc⟩
                  · exact ⟨i, cancellable_mem_cons i _ rest hi, hic⟩
                · rintro ⟨i, hi, hic⟩
                  rcases (by simpa [cancellable_leaf_indices, hh] using hi :
                      i = idx ∨ i ∈ cancellable_leaf_indices rest) with hi2 | hi2
                  · subst hi2; exact Or.inl hic
                  · exact Or.inr ⟨i, hi2, hic⟩
              · intro iid m
                simp only [List.mem_append]
                rintro ((hc | hc) | hc)
                · have := cancel_entry_with_no_resume fid proj idx canceled iid m
                  rw [hcw] at this
                  exact this hc
                · simp at hc
                · exact h4 iid m hc
          all_goals simp [hpay] at h
      case getStateKeys b =>
        cases b with
        | true =>
          simp [cancel_journal_loop, hh, EnrichedEntryHeader.isCompletedFlag] at h
          obtain ⟨h1, h2, h3, h4⟩ := ih s r s1 effs h
          refine ⟨?_, ?_, ?_, h4⟩
          · intro i hi
            exact h1 i (by simpa [cancellable_leaf_indices, hh] using hi)
          · intro i re hmem hhd
            rcases List.mem_cons.mp hmem with hc | hc
            · have hre : re = e := by
                have := congrArg Prod.snd hc
                injection this
              rw [hre, hh] at hhd
              simp at hhd
            · exact h2 i re hc hhd
          · intro w hw
            rw [h3 w hw]
            simp [cancellable_leaf_indices, hh]
        | false =>
          simp [cancel_journal_loop, hh, EnrichedEntryHeader.isCompletedFlag] at h
      all_goals (
        simp [cancel_journal_loop, hh, EnrichedEntryHeader.isCompletedFlag] at h
        obtain ⟨h1, h2, h3, h4⟩ := ih s r s1 effs h
        refine ⟨?_, ?_, ?_, h4⟩
        · intro i hi
          exact h1 i (by simpa [cancellable_leaf_indices, hh] using hi)
        · intro i re hmem hhd
          rcases List.mem_cons.mp hmem with hc | hc
          · have hre : re = e := by
              have := congrArg Prod.snd hc
              injection this
            rw [hre, hh] at hhd
            simp at hhd
          · exact h2 i re hc hhd
        · intro w hw
          rw [h3 w hw]
          simp [cancellable_leaf_indices, hh])

/-- C4: a Cancel of an Invoked or Suspended invocation stores a canceled
completion for every unfinished Awakeable, GetState and Sleep journal
entry, deletes the timer TimerKey(uuid, index, wake_up_time) of every
unfinished Sleep entry, and, when the invocation was Suspended,
resume_service is emitted if and only if some waited-for entry was just
given a canceled completion. -/
theorem claim_C4 (codec : EntryCodec) (det : DeterministicServiceInvoker)
    (s : InterpState) (reader : StateReader) (now : Nat)
    (maybeFid : MaybeFullInvocationId) (meta : InvocationMetadata)
    (wopt : Option (List Nat))
    (hst : reader.getInvocationStatus maybeFid.toInvocationId =
      (match wopt with
       | none => InvocationStatus.invoked meta
       | some w => InvocationStatus.suspended meta w))
    (ret : Option FullInvocationId × SpanRelation) (s1 : InterpState)
    (effs : List Effect)
    (hrun : on_apply codec det s reader now
        (.terminateInvocation ⟨maybeFid, .cancel⟩) = .ok (ret, s1, effs)) :
    (∀ idx, idx ∈ cancellable_leaf_indices
        (reader.getJournal
          (InvocationId.ofFid
            (FullInvocationId.combine meta.serviceId maybeFid.toInvocationId))
          meta.journalMetadata.length) →
      Effect.storeCompletion
        (InvocationId.ofFid
          (FullInvocationId.combine meta.serviceId maybeFid.toInvocationId))
        (Completion.new idx (CompletionResult.ofError CANCELED_INVOCATION_ERROR))
        ∈ effs) ∧
    (∀ idx re, (idx, JournalEntry.entry re) ∈
        reader.getJournal
          (InvocationId.ofFid
            (FullInvocationId.combine meta.serviceId maybeFid.toInvocationId))
          meta.journalMetadata.length →
      re.header = .sleep false →
      ∃ wake, re.entry = .sleep wake ∧
        Effect.deleteTimer
          ⟨(FullInvocationId.combine meta.serviceId
              maybeFid.toInvocationId).invocationUuid, idx, wake⟩ ∈ effs) ∧
    (∀ w, wopt = some w →
      (Effect.resumeService
          (InvocationId.ofFid
            (FullInvocationId.combine meta.serviceId maybeFid.toInvocationId))
          meta ∈ effs ↔
        ∃ idx, idx ∈ cancellable_leaf_indices
          (reader.getJournal
            (InvocationId.ofFid
              (FullInvocationId.combine meta.serviceId maybeFid.toInvocationId))
            meta.journalMetadata.length) ∧ w.contains idx)) := by
  cases wopt with
  | none =>
    simp only [on_apply, try_terminate_invocation, try_cancel_invocation,
      hst] at hrun
    cases hcl : cancel_journal_leaves s reader
        (FullInvocationId.combine meta.serviceId maybeFid.toInvocationId)
        .invoked meta.journalMetadata.length with
    | error err => simp [hcl] at hrun
    | ok v =>
      obtain ⟨rb, sb, eb⟩ := v
      simp only [hcl, except_bind_ok, Except.ok.injEq, Prod.mk.injEq] at hrun
      obtain ⟨_, _, he⟩ := hrun
      subst he
      rw [cancel_journal_leaves] at hcl
      obtain ⟨h1, h2, _, _⟩ := cancel_journal_loop_spec
        (FullInvocationId.combine meta.serviceId maybeFid.toInvocationId)
        .invoked (CompletionResult.ofError CANCELED_INVOCATION_ERROR) _ _ _ _ _ hcl
      refine ⟨h1, h2, ?_⟩
      intro w hw
      cases hw
  | some w =>
    simp only [on_apply, try_terminate_invocation, try_cancel_invocation,
      hst] at hrun
    cases hcl : cancel_journal_leaves s reader
        (FullInvocationId.combine meta.serviceId maybeFid.toInvocationId)
        (.suspended w) meta.journalMetadata.length with
    | error err => simp [hcl] at hrun
    | ok v =>
      obtain ⟨rb, sb, eb⟩ := v
      rw [cancel_journal_leaves] at hcl
      obtain ⟨h1, h2, h3, h4⟩ := cancel_journal_loop_spec
        (FullInvocationId.combine meta.serviceId maybeFid.toInvocationId)
        (.suspended w) (CompletionResult.ofError CANCELED_INVOCATION_ERROR)
        _ _ _ _ _ hcl
      rw [← cancel_journal_leaves] at hcl
      cases rb with
      | true =>
        simp only [hcl, except_bind_ok, if_true, Except.ok.injEq,
          Prod.mk.injEq] at hrun
        obtain ⟨_, _, he⟩ := hrun
        subst he
        refine ⟨?_, ?_, ?_⟩
        · intro idx hidx
          exact List.mem_append_left _ (h1 idx hidx)
        · intro idx re hmem hhd
          obtain ⟨wake, hwake, hmem2⟩ := h2 idx re hmem hhd
          exact ⟨wake, hwake, List.mem_append_left _ hmem2⟩
        · intro w2 hw2
          injection hw2 with hw2
          subst hw2
          have hex := (h3 w rfl).mp rfl
          exact iff_of_true (List.mem_append_right _ (by simp)) hex
      | false =>
        simp only [hcl, except_bind_ok, Bool.false_eq_true, if_false,
          Except.ok.injEq, Prod.mk.injEq, reduceIte] at hrun
        obtain ⟨_, _, he⟩ := hrun
        subst he
        refine ⟨h1, h2, ?_⟩
        intro w2 hw2
        injection hw2 with hw2
        subst hw2
        refine iff_of_false (h4 _ _) ?_
        intro hex
        have := (h3 w rfl).mpr hex
        cases this

/-- Witness for C4: canceling the suspended sample invocation stores the
canceled completion at index 4, deletes the sleep timer and resumes. -/
theorem claim_C4_witness :
    cancelReader.getInvocationStatus
        (MaybeFullInvocationId.invocationOnly sampleIid).toInvocationId =
      (match (some [4] : Option (List Nat)) with
       | none => InvocationStatus.invoked cancelMeta
       | some w => InvocationStatus.suspended cancelMeta w) ∧
    on_apply identityCodec sampleDet sampleState cancelReader 0
        (.terminateInvocation ⟨.invocationOnly sampleIid, .cancel⟩) =
      .ok ((some (FullInvocationId.combine cancelMeta.serviceId
              (MaybeFullInvocationId.invocationOnly sampleIid).toInvocationId),
            cancelMeta.journalMetadata.spanContext.asParent), sampleState,
        [.storeCompletion sampleIid
            (Completion.new 4 (CompletionResult.ofError CANCELED_INVOCATION_ERROR)),
         .deleteTimer ⟨7, 4, 77⟩,
         .resumeService sampleIid cancelMeta]) ∧
    ((∀ idx, idx ∈ cancellable_leaf_indices
        (cancelReader.getJournal
          (InvocationId.ofFid
            (FullInvocationId.combine cancelMeta.serviceId
              (MaybeFullInvocationId.invocationOnly sampleIid).toInvocationId))
          cancelMeta.journalMetadata.length) →
      Effect.storeCompletion
        (InvocationId.ofFid
          (FullInvocationId.combine cancelMeta.serviceId
            (MaybeFullInvocationId.invocationOnly sampleIid).toInvocationId))
        (Completion.new idx (CompletionResult.ofError CANCELED_INVOCATION_ERROR))
        ∈ [Effect.storeCompletion sampleIid
            (Completion.new 4 (CompletionResult.ofError CANCELED_INVOCATION_ERROR)),
           Effect.deleteTimer ⟨7, 4, 77⟩,
           Effect.resumeService sampleIid cancelMeta]) ∧
    (∀ idx re, (idx, JournalEntry.entry re) ∈
        cancelReader.getJournal
          (InvocationId.ofFid
            (FullInvocationId.combine cancelMeta.serviceId
              (MaybeFullInvocationId.invocationOnly sampleIid).toInvocationId))
          cancelMeta.journalMetadata.length →
      re.header = .sleep false →
      ∃ wake, re.entry = .sleep wake ∧
        Effect.deleteTimer
          ⟨(FullInvocationId.combine cancelMeta.serviceId
              (MaybeFullInvocationId.invocationOnly
                sampleIid).toInvocationId).invocationUuid, idx, wake⟩ ∈
          [Effect.storeCompletion sampleIid
            (Completion.new 4 (CompletionResult.ofError CANCELED_INVOCATION_ERROR)),
           Effect.deleteTimer ⟨7, 4, 77⟩,
           Effect.resumeService sampleIid cancelMeta]) ∧
    (∀ w, (some [4] : Option (List Nat)) = some w →
      (Effect.resumeService
          (InvocationId.ofFid
            (FullInvocationId.combine cancelMeta.serviceId
              (MaybeFullInvocationId.invocationOnly sampleIid).toInvocationId))
          cancelMeta ∈
          [Effect.storeCompletion sampleIid
            (Completion.new 4 (CompletionResult.ofError CANCELED_INVOCATION_ERROR)),
           Effect.deleteTimer ⟨7, 4, 77⟩,
           Effect.resumeService sampleIid cancelMeta] ↔
        ∃ idx, idx ∈ cancellable_leaf_indices
          (cancelReader.getJournal
            (InvocationId.ofFid
              (FullInvocationId.combine cancelMeta.serviceId
                (MaybeFullInvocationId.invocationOnly sampleIid).toInvocationId))
            cancelMeta.journalMetadata.length) ∧ w.contains idx))) :=
  ⟨rfl, rfl,
   claim_C4 identityCodec sampleDet sampleState cancelReader 0
    (.invocationOnly sampleIid) cancelMeta (some [4]) rfl
    ((some (FullInvocationId.combine cancelMeta.serviceId
        (MaybeFullInvocationId.invocationOnly sampleIid).toInvocationId),
      cancelMeta.journalMetadata.spanContext.asParent)) sampleState
    [Effect.storeCompletion sampleIid
        (Completion.new 4 (CompletionResult.ofError CANCELED_INVOCATION_ERROR)),
     Effect.deleteTimer ⟨7, 4, 77⟩,
     Effect.resumeService sampleIid cancelMeta] rfl⟩

/-- An effect list without outbox enqueues is contiguous in place. -/
theorem outboxContiguous_nil (a : Nat) (effs : List Effect)
    (h : outbox_seqs effs = []) : OutboxContiguous a a effs := by
  simp [OutboxContiguous, h]

/-- A single outbox enqueue at the current counter is contiguous. -/
theorem outboxContiguous_single (a : Nat) (msg : OutboxMessage) :
    OutboxContiguous a (a + 1) [.enqueueIntoOutbox a msg] := by
  simp [OutboxContiguous, outbox_seqs]

/-- Contiguous runs compose. -/
theorem outboxContiguous_append {a b c : Nat} {e1 e2 : List Effect}
    (h1 : OutboxContiguous a b e1) (h2 : OutboxContiguous b c e2) :
    OutboxContiguous a c (e1 ++ e2) := by
  obtain ⟨hb, hs1⟩ := h1
  obtain ⟨hc, hs2⟩ := h2
  have happ : outbox_seqs (e1 ++ e2) = outbox_seqs e1 ++ outbox_seqs e2 := by
    simp [outbox_seqs, List.filterMap_append]
  refine ⟨?_, ?_⟩
  · rw [happ, List.length_append, hc, hb, Nat.add_assoc]
  · rw [happ, List.length_append, hs1, hs2, hb]
    simp only [List.length_range']
    rw [Nat.add_comm (outbox_seqs e1).length (outbox_seqs e2).length]
    exact List.range'_append_1 a (outbox_seqs e1).length (outbox_seqs e2).length

/-- handle_outgoing_message emits its counter and advances it by one. -/
theorem handle_outgoing_message_outbox (s : InterpState) (msg : OutboxMessage) :
    OutboxContiguous s.outboxSeqNumber
      (handle_outgoing_message s msg).1.outboxSeqNumber
      (handle_outgoing_message s msg).2 := by
  simpa [handle_outgoing_message] using
    outboxContiguous_single s.outboxSeqNumber msg

/-- Inbox enqueues do not touch the outbox counter. -/
theorem enqueue_into_inbox_outbox (s : InterpState) (e : InboxEntry) :
    OutboxContiguous s.outboxSeqNumber
      (enqueue_into_inbox s e).1.outboxSeqNumber
      (enqueue_into_inbox s e).2 := by
  exact outboxContiguous_nil _ _ rfl

/-- Response routing preserves outbox contiguity. -/
theorem send_response_outbox (s : InterpState) (response : ResponseMessage) :
    OutboxContiguous s.outboxSeqNumber
      (send_response s response).1.outboxSeqNumber
      (send_response s response).2 := by
  cases response with
  | outbox msg => exact handle_outgoing_message_outbox s msg
  | ingress r => exact outboxContiguous_nil _ _ rfl

/-- Failure responses preserve outbox contiguity. -/
theorem try_send_failure_response_outbox (s : InterpState)
    (fid : FullInvocationId) (sink : Option ServiceInvocationResponseSink)
    (error : InvocationError) :
    OutboxContiguous s.outboxSeqNumber
      (try_send_failure_response s fid sink error).1.outboxSeqNumber
      (try_send_failure_response s fid sink error).2 := by
  cases sink with
  | none => exact outboxContiguous_nil _ _ rfl
  | some sk => exact send_response_outbox s _

/-- fail_invocation preserves outbox contiguity. -/
theorem fail_invocation_outbox (s : InterpState) (fid : FullInvocationId)
    (meta : InvocationMetadata) (error : InvocationError) :
    OutboxContiguous s.outboxSeqNumber
      (fail_invocation s fid meta error).1.outboxSeqNumber
      (fail_invocation s fid meta error).2 := by
  rcases hr : try_send_failure_response s fid meta.responseSink error with ⟨s1, e1⟩
  have h1 := try_send_failure_response_outbox s fid meta.responseSink error
  rw [hr] at h1
  simp only [fail_invocation, hr]
  exact outboxContiguous_append
    (outboxContiguous_append h1 (outboxContiguous_nil _ _ rfl))
    (outboxContiguous_nil _ _ rfl)

/-- end_invocation emits no outbox messages. -/
theorem end_invocation_outbox (s : InterpState) (fid : FullInvocationId)
    (meta : InvocationMetadata) :
    OutboxContiguous s.outboxSeqNumber
      (end_invocation s fid meta).1.outboxSeqNumber
      (end_invocation s fid meta).2 := by
  exact outboxContiguous_nil _ _ rfl

/-- Completion handling emits no outbox messages. -/
theorem handle_completion_no_outbox (reader : StateReader)
    (maybeFid : MaybeFullInvocationId) (completion : Completion) :
    outbox_seqs (handle_completion reader maybeFid completion).2 = [] := by
  unfold handle_completion
  dsimp only
  split
  · rfl
  · dsimp [handle_completion_for_suspended]
    split <;> rfl
  · rfl

/-- terminate_inboxed_invocation preserves outbox contiguity. -/
theorem terminate_inboxed_invocation_outbox (s : InterpState)
    (entry : SequenceNumberInvocation) (error : InvocationError) (now : Nat) :
    OutboxContiguous s.outboxSeqNumber
      (terminate_inboxed_invocation s entry error now).2.1.outboxSeqNumber
      (terminate_inboxed_invocation s entry error now).2.2 := by
  rcases hr : try_send_failure_response s entry.invocation.fid
      entry.invocation.responseSink error with ⟨s1, e1⟩
  have h1 := try_send_failure_response_outbox s entry.invocation.fid
    entry.invocation.responseSink error
  rw [hr] at h1
  simp only [terminate_inboxed_invocation, hr]
  exact outboxContiguous_append
    (outboxContiguous_append h1 (outboxContiguous_nil _ _ rfl))
    (outboxContiguous_nil _ _ rfl)

/-- try_terminate_inboxed_invocation preserves outbox contiguity. -/
theorem try_terminate_inboxed_invocation_outbox (s : InterpState)
    (reader : StateReader) (flavor : TerminationFlavor)
    (maybeFid : MaybeFullInvocationId) (now : Nat) :
    OutboxContiguous s.outboxSeqNumber
      (try_terminate_inboxed_invocation s reader flavor maybeFid now).2.1.outboxSeqNumber
      (try_terminate_inboxed_invocation s reader flavor maybeFid now).2.2 := by
  unfold try_terminate_inboxed_invocation
  cases reader.getInboxedInvocation maybeFid with
  | some entry => exact terminate_inboxed_invocation_outbox s entry _ now
  | none =>
      cases maybeFid with
      | full fid => exact outboxContiguous_nil _ _ rfl
      | invocationOnly iid => exact outboxContiguous_nil _ _ rfl

/-- The sequence numbers of a kill-effect run form the contiguous range. -/
theorem outbox_kill_effects_seqs (ts : List FullInvocationId) (a : Nat) :
    outbox_seqs (outbox_kill_effects a ts) = List.range' a ts.length := by
  induction ts generalizing a with
  | nil => rfl
  | cons f rest ih =>
      simp [outbox_kill_effects, outbox_seqs, List.range'_succ]
      have := ih (a + 1)
      simp [outbox_seqs] at this
      exact this

/-- The kill journal walk keeps the outbox contiguous. -/
theorem kill_child_loop_outbox (s : InterpState) (l : List (Nat × JournalEntry)) :
    OutboxContiguous s.outboxSeqNumber
      (kill_child_loop s l).1.outboxSeqNumber (kill_child_loop s l).2 := by
  rw [kill_child_loop_spec]
  refine ⟨?_, ?_⟩ <;> simp [outbox_kill_effects_seqs]

/-- kill_invocation keeps the outbox contiguous. -/
theorem kill_invocation_outbox (s : InterpState) (reader : StateReader)
    (fid : FullInvocationId) (meta : InvocationMetadata) :
    OutboxContiguous s.outboxSeqNumber
      (kill_invocation s reader fid meta).1.outboxSeqNumber
      (kill_invocation s reader fid meta).2 := by
  rcases h1 : kill_child_invocations s reader (InvocationId.ofFid fid)
      meta.journalMetadata.length with ⟨s1, e1⟩
  rcases h2 : fail_invocation s1 fid meta KILLED_INVOCATION_ERROR with ⟨s2, e2⟩
  rw [kill_child_invocations] at h1
  have o1 := kill_child_loop_outbox s
    (reader.getJournal (InvocationId.ofFid fid) meta.journalMetadata.length)
  rw [h1] at o1
  have o2 := fail_invocation_outbox s1 fid meta KILLED_INVOCATION_ERROR
  rw [h2] at o2
  simp only [kill_invocation, kill_child_invocations, h1, h2]
  exact outboxContiguous_append (outboxContiguous_append o1 o2)
    (outboxContiguous_nil _ _ rfl)

/-- try_kill_invocation keeps the outbox contiguous. -/
theorem try_kill_invocation_outbox (s : InterpState) (reader : StateReader)
    (maybeFid : MaybeFullInvocationId) (now : Nat) :
    OutboxContiguous s.outboxSeqNumber
      (try_kill_invocation s reader maybeFid now).2.1.outboxSeqNumber
      (try_kill_invocation s reader maybeFid now).2.2 := by
  unfold try_kill_invocation
  dsimp only
  cases reader.getInvocationStatus maybeFid.toInvocationId with
  | invoked meta =>
      exact kill_invocation_outbox s reader _ meta
  | suspended meta w =>
      exact kill_invocation_outbox s reader _ meta
  | free => exact try_terminate_inboxed_invocation_outbox s reader .kill maybeFid now
  | inboxed a b =>
      exact try_terminate_inboxed_invocation_outbox s reader .kill maybeFid now

/-- Canceling one journal entry emits no outbox messages. -/
theorem cancel_entry_with_no_outbox (fid : FullInvocationId)
    (proj : InvocationStatusProjection) (idx : Nat) (canceled : CompletionResult) :
    outbox_seqs (cancel_journal_entry_with fid proj idx canceled).2 = [] := by
  cases proj <;> rfl

/-- The cancellation walk keeps the outbox contiguous. -/
theorem cancel_journal_loop_outbox (fid : FullInvocationId)
    (proj : InvocationStatusProjection) (canceled : CompletionResult)
    (l : List (Nat × JournalEntry)) :
    ∀ (s : InterpState) (r : Bool) (s1 : InterpState) (effs : List Effect),
    cancel_journal_loop fid proj canceled s l = .ok (r, s1, effs) →
    OutboxContiguous s.outboxSeqNumber s1.outboxSeqNumber effs := by
  induction l with
  | nil =>
    intro s r s1 effs h
    simp [cancel_journal_loop] at h
    obtain ⟨_, hs, he⟩ := h
    subst hs; subst he
    exact outboxContiguous_nil _ _ rfl
  | cons p rest ih =>
    obtain ⟨idx, je⟩ := p
    intro s r s1 effs h
    cases je with
    | completion cr =>
      rw [cancel_journal_loop] at h
      exact ih s r s1 effs h
    | entry e =>
      cases hh : e.header
      case invoke b enr =>
        cases b with
        | true =>
          simp [cancel_journal_loop, hh, EnrichedEntryHeader.isCompletedFlag] at h
          exact ih s r s1 effs h
        | false =>
          cases enr with
          | none =>
            simp [cancel_journal_loop, hh, EnrichedEntryHeader.isCompletedFlag] at h
          | some er =>
            simp only [cancel_journal_loop, hh] at h
            cases hrest : cancel_journal_loop fid proj canceled
                { s with outboxSeqNumber := s.outboxSeqNumber + 1 } rest with
            | error err => simp [handle_outgoing_message, hrest] at h
            | ok v =>
              obtain ⟨r2, s2, e2⟩ := v
              simp only [handle_outgoing_message, hrest, except_bind_ok,
                Except.ok.injEq, Prod.mk.injEq] at h
              obtain ⟨_, hs, he⟩ := h
              subst hs; subst he
              have hrec := ih _ r2 s2 e2 hrest
              exact outboxContiguous_append
                (outboxContiguous_single s.outboxSeqNumber _) hrec
      case awakeable b =>
        cases b with
        | true =>
          simp [cancel_journal_loop, hh, EnrichedEntryHeader.isCompletedFlag] at h
          exact ih s r s1 effs h
        | false =>
          rcases hcw : cancel_journal_entry_with fid proj idx canceled with ⟨r1, e1⟩
          simp only [cancel_journal_loop, hh, hcw] at h
          cases hrest : cancel_journal_loop fid proj canceled s rest with
          | error err => simp [hrest] at h
          | ok v =>
            obtain ⟨r2, s2, e2⟩ := v
            simp only [hrest, except_bind_ok, Except.ok.injEq,
              Prod.mk.injEq] at h
            obtain ⟨_, hs, he⟩ := h
            subst hs; subst he
            refine outboxContiguous_append ?_ (ih s r2 s2 e2 hrest)
            refine outboxContiguous_nil _ _ ?_
            have := cancel_entry_with_no_outbox fid proj idx canceled
            rw [hcw] at this
            exact this
      case getState b =>
        cases b with
        | true =>
          simp [cancel_journal_loop, hh, EnrichedEntryHeader.isCompletedFlag] at h
          exact ih s r s1 effs h
        | false =>
          rcases hcw : cancel_journal_entry_with fid proj idx canceled with ⟨r1, e1⟩
          simp only [cancel_journal_loop, hh, hcw] at h
          cases hrest : cancel_journal_loop fid proj canceled s rest with
          | error err => simp [hrest] at h
          | ok v =>
            obtain ⟨r2, s2, e2⟩ := v
            simp only [hrest, except_bind_ok, Except.ok.injEq,
              Prod.mk.injEq] at h
            obtain ⟨_, hs, he⟩ := h
            subst hs; subst he
            refine outboxContiguous_append ?_ (ih s r2 s2 e2 hrest)
            refine outboxContiguous_nil _ _ ?_
            have := cancel_entry_with_no_outbox fid proj idx canceled
            rw [hcw] at this
            exact this
      case sleep b =>
        cases b with
        | true =>
          simp [cancel_journal_loop, hh, EnrichedEntryHeader.isCompletedFlag] at h
          exact ih s r s1 effs h
        | false =>
          rcases hcw : cancel_journal_entry_with fid proj idx canceled with ⟨r1, e1⟩
          simp only [cancel_journal_loop, hh, hcw, protobufDeserialize,
            except_bind_ok] at h
          cases hpay : e.entry
          case sleep wake =>
            simp only [hpay] at h
            cases hrest : cancel_journal_loop fid proj canceled s rest with
            | error err => simp [hrest] at h
            | ok v =>
              obtain ⟨r2, s2, e2⟩ := v
              simp only [hrest, except_bind_ok, Except.ok.injEq,
                Prod.mk.injEq] at h
              obtain ⟨_, hs, he⟩ := h
              subst hs; subst he
              refine outboxContiguous_append ?_ (ih s r2 s2 e2 hrest)
              refine outboxContiguous_nil _ _ ?_
              have := cancel_entry_with_no_outbox fid proj idx canceled
              rw [hcw] at this
              simp [outbox_seqs, List.filterMap_append] at this ⊢
              exact this
          all_goals simp [hpay] at h
      case getStateKeys b =>
        cases b with
        | true =>
          simp [cancel_journal_loop, hh, EnrichedEntryHeader.isCompletedFlag] at h
          exact ih s r s1 effs h
        | false =>
          simp [cancel_journal_loop, hh, EnrichedEntryHeader.isCompletedFlag] at h
      all_goals (
        simp [cancel_journal_loop, hh, EnrichedEntryHeader.isCompletedFlag] at h
        exact ih s r s1 effs h)

/-- cancel_journal_leaves keeps the outbox contiguous. -/
theorem cancel_journal_leaves_outbox (s : InterpState) (reader : StateReader)
    (fid : FullInvocationId) (proj : InvocationStatusProjection)
    (journalLength : Nat) (r : Bool) (s1 : InterpState) (effs : List Effect)
    (h : cancel_journal_leaves s reader fid proj journalLength =
      .ok (r, s1, effs)) :
    OutboxContiguous s.outboxSeqNumber s1.outboxSeqNumber effs := by
  rw [cancel_journal_leaves] at h
  exact cancel_journal_loop_outbox fid proj _ _ s r s1 effs h

/-- The per-header journal entry dispatch keeps the outbox contiguous. -/
theorem handle_journal_entry_body_outbox (codec : EntryCodec) (s : InterpState)
    (reader : StateReader) (fid : FullInvocationId) (entryIndex : Nat)
    (je : EnrichedRawEntry) (meta : InvocationMetadata) :
    ∀ (s1 : InterpState) (effs : List Effect) (je1 : EnrichedRawEntry),
    handle_journal_entry_body codec s reader fid entryIndex je meta =
      .ok (s1, effs, je1) →
    OutboxContiguous s.outboxSeqNumber s1.outboxSeqNumber effs := by
  intro s1 effs je1 h
  cases hh : je.header
  case output =>
    cases hsink : meta.responseSink with
    | none =>
      simp only [handle_journal_entry_body, hh, hsink, Except.ok.injEq,
        Prod.mk.injEq] at h
      obtain ⟨hs, he, _⟩ := h
      subst hs; subst he
      exact outboxContiguous_nil _ _ rfl
    | some sink =>
      simp only [handle_journal_entry_body, hh, hsink] at h
      cases hdes : codec.deserializeEntry je with
      | error err => simp [hdes] at h
      | ok payload =>
        simp only [hdes, except_bind_ok] at h
        cases hpay : payload
        case output result =>
          rcases hsr : send_response s
              (create_response_message fid sink result.toResponseResult)
            with ⟨s2, e2⟩
          simp only [hpay, hsr, Except.ok.injEq, Prod.mk.injEq] at h
          obtain ⟨hs, he, _⟩ := h
          subst hs; subst he
          have := send_response_outbox s
            (create_response_message fid sink result.toResponseResult)
          rw [hsr] at this
          exact this
        all_goals simp [hpay] at h
  case getState b =>
    cases b with
    | true =>
      simp only [handle_journal_entry_body, hh, if_true, Except.ok.injEq,
        Prod.mk.injEq] at h
      obtain ⟨hs, he, _⟩ := h
      subst hs; subst he
      exact outboxContiguous_nil _ _ rfl
    | false =>
      simp only [handle_journal_entry_body, hh, Bool.false_eq_true,
        if_false, reduceIte] at h
      cases hdes : codec.deserializeEntry je with
      | error err => simp [hdes] at h
      | ok payload =>
        simp only [hdes, except_bind_ok] at h
        cases hpay : payload
        case getState key =>
          simp only [hpay] at h
          cases hwc : codec.writeCompletion je
              ((Option.map CompletionResult.success
                (reader.loadState fid.serviceId key)).getD .empty) with
          | error err => simp [hwc] at h
          | ok je2 =>
            simp only [hwc, except_bind_ok, Except.ok.injEq,
              Prod.mk.injEq] at h
            obtain ⟨hs, he, _⟩ := h
            subst hs; subst he
            exact outboxContiguous_nil _ _ rfl
        all_goals simp [hpay] at h
  case setState =>
    simp only [handle_journal_entry_body, hh] at h
    cases hdes : codec.deserializeEntry je with
    | error err => simp [hdes] at h
    | ok payload =>
      simp only [hdes, except_bind_ok] at h
      cases hpay : payload
      case setState key value =>
        simp only [hpay, Except.ok.injEq, Prod.mk.injEq] at h
        obtain ⟨hs, he, _⟩ := h
        subst hs; subst he
        exact outboxContiguous_nil _ _ rfl
      all_goals simp [hpay] at h
  case clearState =>
    simp only [handle_journal_entry_body, hh] at h
    cases hdes : codec.deserializeEntry je with
    | error err => simp [hdes] at h
    | ok payload =>
      simp only [hdes, except_bind_ok] at h
      cases hpay : payload
      case clearState key =>
        simp only [hpay, Except.ok.injEq, Prod.mk.injEq] at h
        obtain ⟨hs, he, _⟩ := h
        subst hs; subst he
        exact outboxContiguous_nil _ _ rfl
      all_goals simp [hpay] at h
  case getStateKeys b =>
    cases b with
    | true =>
      simp only [handle_journal_entry_body, hh, if_true, Except.ok.injEq,
        Prod.mk.injEq] at h
      obtain ⟨hs, he, _⟩ := h
      subst hs; subst he
      exact outboxContiguous_nil _ _ rfl
    | false =>
      simp only [handle_journal_entry_body, hh, Bool.false_eq_true,
        if_false, reduceIte] at h
      cases hwc : codec.writeCompletion je
          (codec.serializeGetStateKeysCompletion
            (reader.loadStateKeys fid.serviceId)) with
      | error err => simp [hwc] at h
      | ok je2 =>
        simp only [hwc, except_bind_ok, Except.ok.injEq, Prod.mk.injEq] at h
        obtain ⟨hs, he, _⟩ := h
        subst hs; subst he
        exact outboxContiguous_nil _ _ rfl
  case sleep b =>
    cases b with
    | true => simp [handle_journal_entry_body, hh] at h
    | false =>
      simp only [handle_journal_entry_body, hh, Bool.false_eq_true,
        if_false, reduceIte] at h
      cases hdes : codec.deserializeEntry je with
      | error err => simp [hdes] at h
      | ok payload =>
        simp only [hdes, except_bind_ok] at h
        cases hpay : payload
        case sleep wake =>
          simp only [hpay, Except.ok.injEq, Prod.mk.injEq] at h
          obtain ⟨hs, he, _⟩ := h
          subst hs; subst he
          exact outboxContiguous_nil _ _ rfl
        all_goals simp [hpay] at h
  case invoke b enr =>
    cases enr with
    | none =>
      simp only [handle_journal_entry_body, hh, Except.ok.injEq,
        Prod.mk.injEq] at h
      obtain ⟨hs, he, _⟩ := h
      subst hs; subst he
      exact outboxContiguous_nil _ _ rfl
    | some er =>
      simp only [handle_journal_entry_body, hh] at h
      cases hdes : codec.deserializeEntry je with
      | error err => simp [hdes] at h
      | ok payload =>
        simp only [hdes, except_bind_ok] at h
        cases hpay : payload
        case invoke request =>
          rcases hom : handle_outgoing_message s
              (.serviceInvocation (create_service_invocation er.invocationUuid
                er.serviceKey request (.service fid) (some (fid, entryIndex))
                er.spanContext none)) with ⟨s2, e2⟩
          simp only [hpay, hom, Except.ok.injEq, Prod.mk.injEq] at h
          obtain ⟨hs, he, _⟩ := h
          subst hs; subst he
          have := handle_outgoing_message_outbox s
            (.serviceInvocation (create_service_invocation er.invocationUuid
              er.serviceKey request (.service fid) (some (fid, entryIndex))
              er.spanContext none))
          rw [hom] at this
          exact this
        all_goals simp [hpay] at h
  case backgroundInvoke er =>
    simp only [handle_journal_entry_body, hh] at h
    cases hdes : codec.deserializeEntry je with
    | error err => simp [hdes] at h
    | ok payload =>
      simp only [hdes, except_bind_ok] at h
      cases hpay : payload
      case backgroundInvoke request invokeTime =>
        rcases hom : handle_outgoing_message s
            (.serviceInvocation (create_service_invocation er.invocationUuid
              er.serviceKey request (.service fid) none er.spanContext
              (if invokeTime == 0 then none else some invokeTime)))
          with ⟨s2, e2⟩
        simp only [hpay, hom, Except.ok.injEq, Prod.mk.injEq] at h
        obtain ⟨hs, he, _⟩ := h
        subst hs; subst he
        have := handle_outgoing_message_outbox s
          (.serviceInvocation (create_service_invocation er.invocationUuid
            er.serviceKey request (.service fid) none er.spanContext
            (if invokeTime == 0 then none else some invokeTime)))
        rw [hom] at this
        exact outboxContiguous_append (outboxContiguous_nil _ _ rfl) this
      all_goals simp [hpay] at h
  case awakeable b =>
    cases b with
    | true => simp [handle_journal_entry_body, hh] at h
    | false =>
      simp only [handle_journal_entry_body, hh, Bool.false_eq_true,
        if_false, reduceIte] at h
      cases hlc : reader.loadCompletionResult (InvocationId.ofFid fid)
          entryIndex with
      | none =>
        simp only [hlc, Except.ok.injEq, Prod.mk.injEq] at h
        obtain ⟨hs, he, _⟩ := h
        subst hs; subst he
        exact outboxContiguous_nil _ _ rfl
      | some completionResult =>
        simp only [hlc] at h
        cases hwc : codec.writeCompletion je completionResult with
        | error err => simp [hwc] at h
        | ok je2 =>
          simp only [hwc, except_bind_ok, Except.ok.injEq, Prod.mk.injEq] at h
          obtain ⟨hs, he, _⟩ := h
          subst hs; subst he
          exact outboxContiguous_nil _ _ rfl
  case completeAwakeable er =>
    simp only [handle_journal_entry_body, hh] at h
    cases hdes : codec.deserializeEntry je with
    | error err => simp [hdes] at h
    | ok payload =>
      simp only [hdes, except_bind_ok] at h
      cases hpay : payload
      case completeAwakeable result =>
        rcases hom : handle_outgoing_message s
            (OutboxMessage.fromAwakeableCompletion er.invocationId er.entryIndex
              result.toResponseResult) with ⟨s2, e2⟩
        simp only [hpay, hom, Except.ok.injEq, Prod.mk.injEq] at h
        obtain ⟨hs, he, _⟩ := h
        subst hs; subst he
        have := handle_outgoing_message_outbox s
          (OutboxMessage.fromAwakeableCompletion er.invocationId er.entryIndex
            result.toResponseResult)
        rw [hom] at this
        exact this
      all_goals simp [hpay] at h
  all_goals (
    simp only [handle_journal_entry_body, hh, Except.ok.injEq,
      Prod.mk.injEq] at h
    obtain ⟨hs, he, _⟩ := h
    subst hs; subst he
    exact outboxContiguous_nil _ _ rfl)

/-- handle_journal_entry keeps the outbox contiguous. -/
theorem handle_journal_entry_outbox (codec : EntryCodec) (s : InterpState)
    (reader : StateReader) (fid : FullInvocationId) (entryIndex : Nat)
    (je : EnrichedRawEntry) (meta : InvocationMetadata) :
    ∀ (s1 : InterpState) (effs : List Effect),
    handle_journal_entry codec s reader fid entryIndex je meta = .ok (s1, effs) →
    OutboxContiguous s.outboxSeqNumber s1.outboxSeqNumber effs := by
  intro s1 effs h
  rw [handle_journal_entry] at h
  split at h
  · cases h
  · cases hb : handle_journal_entry_body codec s reader fid entryIndex je meta with
    | error err => simp [hb] at h
    | ok v =>
      obtain ⟨s2, e2, je2⟩ := v
      simp only [hb, except_bind_ok, Except.ok.injEq, Prod.mk.injEq] at h
      obtain ⟨hs, he⟩ := h
      subst hs; subst he
      have := handle_journal_entry_body_outbox codec s reader fid entryIndex je
        meta s2 e2 je2 hb
      exact outboxContiguous_append this (outboxContiguous_nil _ _ rfl)

/-- on_invoker_effect keeps the outbox contiguous. -/
theorem on_invoker_effect_outbox (codec : EntryCodec) (s : InterpState)
    (reader : StateReader) (effect : InvokerEffect) (meta : InvocationMetadata) :
    ∀ (ret : FullInvocationId × SpanRelation) (s1 : InterpState)
      (effs : List Effect),
    on_invoker_effect codec s reader effect meta = .ok (ret, s1, effs) →
    OutboxContiguous s.outboxSeqNumber s1.outboxSeqNumber effs := by
  intro ret s1 effs h
  cases hk : effect.kind
  case selectedDeployment d =>
    simp only [on_invoker_effect, hk, Except.ok.injEq, Prod.mk.injEq] at h
    obtain ⟨_, hs, he⟩ := h
    subst hs; subst he
    exact outboxContiguous_nil _ _ rfl
  case journalEntry idx entry =>
    simp only [on_invoker_effect, hk] at h
    cases hje : handle_journal_entry codec s reader effect.fullInvocationId idx
        entry meta with
    | error err => simp [hje] at h
    | ok v =>
      obtain ⟨s2, e2⟩ := v
      simp only [hje, except_bind_ok, Except.ok.injEq, Prod.mk.injEq] at h
      obtain ⟨_, hs, he⟩ := h
      subst hs; subst he
      exact handle_journal_entry_outbox codec s reader _ idx entry meta s2 e2 hje
  case suspended waiting =>
    simp only [on_invoker_effect, hk] at h
    split at h
    · cases h
    · split at h <;> (
        simp only [Except.ok.injEq, Prod.mk.injEq] at h
        obtain ⟨_, hs, he⟩ := h
        subst hs; subst he
        exact outboxContiguous_nil _ _ rfl)
  case End =>
    rcases he1 : end_invocation s effect.fullInvocationId meta with ⟨s2, e2⟩
    simp only [on_invoker_effect, hk, he1, Except.ok.injEq, Prod.mk.injEq] at h
    obtain ⟨_, hs, he⟩ := h
    subst hs; subst he
    have := end_invocation_outbox s effect.fullInvocationId meta
    rw [he1] at this
    exact this
  case failed e =>
    rcases he1 : fail_invocation s effect.fullInvocationId meta e with ⟨s2, e2⟩
    simp only [on_invoker_effect, hk, he1, Except.ok.injEq, Prod.mk.injEq] at h
    obtain ⟨_, hs, he⟩ := h
    subst hs; subst he
    have := fail_invocation_outbox s effect.fullInvocationId meta e
    rw [he1] at this
    exact this

/-- try_invoker_effect keeps the outbox contiguous. -/
theorem try_invoker_effect_outbox (codec : EntryCodec) (s : InterpState)
    (reader : StateReader) (effect : InvokerEffect) :
    ∀ (ret : FullInvocationId × SpanRelation) (s1 : InterpState)
      (effs : List Effect),
    try_invoker_effect codec s reader effect = .ok (ret, s1, effs) →
    OutboxContiguous s.outboxSeqNumber s1.outboxSeqNumber effs := by
  intro ret s1 effs h
  rw [try_invoker_effect] at h
  cases hst : reader.getInvocationStatus
      (InvocationId.ofFid effect.fullInvocationId) with
  | invoked meta =>
      simp only [hst] at h
      exact on_invoker_effect_outbox codec s reader effect meta ret s1 effs h
  | free =>
      simp only [hst, Except.ok.injEq, Prod.mk.injEq] at h
      obtain ⟨_, hs, he⟩ := h
      subst hs; subst he
      exact outboxContiguous_nil _ _ rfl
  | inboxed a b =>
      simp only [hst, Except.ok.injEq, Prod.mk.injEq] at h
      obtain ⟨_, hs, he⟩ := h
      subst hs; subst he
      exact outboxContiguous_nil _ _ rfl
  | suspended meta w =>
      simp only [hst, Except.ok.injEq, Prod.mk.injEq] at h
      obtain ⟨_, hs, he⟩ := h
      subst hs; subst he
      exact outboxContiguous_nil _ _ rfl

/-- The deterministic built-in effect loop keeps the outbox contiguous. -/
theorem deterministic_effects_loop_outbox (l : List DeterministicEffect) :
    ∀ s : InterpState,
    OutboxContiguous s.outboxSeqNumber
      (deterministic_effects_loop s l).1.outboxSeqNumber
      (deterministic_effects_loop s l).2 := by
  induction l with
  | nil => intro s; exact outboxContiguous_nil _ _ rfl
  | cons eff rest ih =>
    intro s
    cases eff with
    | outboxMessage msg =>
      rcases hom : handle_outgoing_message s msg with ⟨s2, e2⟩
      rcases hrest : deterministic_effects_loop s2 rest with ⟨s3, e3⟩
      simp only [deterministic_effects_loop, hom, hrest]
      have o1 := handle_outgoing_message_outbox s msg
      rw [hom] at o1
      have o2 := ih s2
      rw [hrest] at o2
      exact outboxContiguous_append o1 o2
    | ingressResponse r =>
      rcases hrest : deterministic_effects_loop s rest with ⟨s3, e3⟩
      simp only [deterministic_effects_loop, hrest]
      have o2 := ih s
      rw [hrest] at o2
      exact outboxContiguous_append (outboxContiguous_nil _ _ rfl) o2

/-- handle_invoke keeps the outbox contiguous. -/
theorem handle_invoke_outbox (det : DeterministicServiceInvoker)
    (s : InterpState) (reader : StateReader) (si : ServiceInvocation) :
    ∀ (ret : Option FullInvocationId × SpanRelation) (s1 : InterpState)
      (effs : List Effect),
    handle_invoke det s reader si = .ok (ret, s1, effs) →
    OutboxContiguous s.outboxSeqNumber s1.outboxSeqNumber effs := by
  intro ret s1 effs h
  rw [handle_invoke] at h
  split at h
  · cases h
  · cases hex : si.executionTime with
    | some t =>
      rw [hex] at h
      simp only [Except.ok.injEq, Prod.mk.injEq] at h
      obtain ⟨_, hs, he⟩ := h
      subst hs; subst he
      exact outboxContiguous_nil _ _ rfl
    | none =>
      rw [hex] at h
      dsimp only at h
      split at h
      · rcases hdb : handle_deterministic_built_in_service_invocation det s si
          with ⟨s2, e2⟩
        rw [hdb] at h
        simp only [Except.ok.injEq, Prod.mk.injEq] at h
        obtain ⟨_, hs, he⟩ := h
        subst hs; subst he
        have := deterministic_effects_loop_outbox
          (det.invoke si.fid si.methodName si.spanContext si.responseSink
            si.argument) s
        rw [show deterministic_effects_loop s
            (det.invoke si.fid si.methodName si.spanContext si.responseSink
              si.argument) =
            handle_deterministic_built_in_service_invocation det s si from rfl,
          hdb] at this
        exact this
      · split at h
        · simp only [Except.ok.injEq, Prod.mk.injEq] at h
          obtain ⟨_, hs, he⟩ := h
          subst hs; subst he
          exact outboxContiguous_nil _ _ rfl
        · rcases henq : enqueue_into_inbox s (.invocation si) with ⟨s2, e2⟩
          rw [henq] at h
          simp only [Except.ok.injEq, Prod.mk.injEq] at h
          obtain ⟨_, hs, he⟩ := h
          subst hs; subst he
          have := enqueue_into_inbox_outbox s (.invocation si)
          rw [henq] at this
          exact this

/-- handle_external_state_mutation keeps the outbox contiguous. -/
theorem handle_external_state_mutation_outbox (s : InterpState)
    (reader : StateReader) (mutation : ExternalStateMutation) :
    OutboxContiguous s.outboxSeqNumber
      (handle_external_state_mutation s reader mutation).2.1.outboxSeqNumber
      (handle_external_state_mutation s reader mutation).2.2 := by
  rw [handle_external_state_mutation]
  cases reader.getVirtualObjectStatus mutation.componentId with
  | locked fid => exact enqueue_into_inbox_outbox s _
  | unlocked => exact outboxContiguous_nil _ _ rfl

/-- on_timer keeps the outbox contiguous. -/
theorem on_timer_outbox (det : DeterministicServiceInvoker) (s : InterpState)
    (reader : StateReader) (tv : TimerValue) :
    ∀ (ret : Option FullInvocationId × SpanRelation) (s1 : InterpState)
      (effs : List Effect),
    on_timer det s reader tv = .ok (ret, s1, effs) →
    OutboxContiguous s.outboxSeqNumber s1.outboxSeqNumber effs := by
  intro ret s1 effs h
  rw [on_timer] at h
  cases htv : tv.value with
  | completeSleepEntry serviceId =>
      simp only [htv] at h
      rcases hc : handle_completion reader
          (.full ⟨serviceId, tv.key.invocationUuid⟩)
          { entryIndex := tv.key.journalIndex, result := .empty } with ⟨r2, e2⟩
      rw [hc] at h
      simp only [Except.ok.injEq, Prod.mk.injEq] at h
      obtain ⟨_, hs, he⟩ := h
      subst hs; subst he
      refine outboxContiguous_nil _ _ ?_
      have := handle_completion_no_outbox reader
        (.full ⟨serviceId, tv.key.invocationUuid⟩)
        { entryIndex := tv.key.journalIndex, result := .empty }
      rw [hc] at this
      simp [outbox_seqs, List.filterMap_append] at this ⊢
      exact this
  | invoke si =>
      simp only [htv] at h
      cases hinv : handle_invoke det s reader { si with executionTime := none } with
      | error err => simp [hinv] at h
      | ok v =>
        obtain ⟨r2, s2, e2⟩ := v
        simp only [hinv, except_bind_ok, Except.ok.injEq, Prod.mk.injEq] at h
        obtain ⟨_, hs, he⟩ := h
        subst hs; subst he
        have := handle_invoke_outbox det s reader
          { si with executionTime := none } r2 s2 e2 hinv
        exact outboxContiguous_append (outboxContiguous_nil _ _ rfl) this

/-- try_cancel_invocation keeps the outbox contiguous. -/
theorem try_cancel_invocation_outbox (s : InterpState) (reader : StateReader)
    (maybeFid : MaybeFullInvocationId) (now : Nat) :
    ∀ (ret : Option FullInvocationId × SpanRelation) (s1 : InterpState)
      (effs : List Effect),
    try_cancel_invocation s reader maybeFid now = .ok (ret, s1, effs) →
    OutboxContiguous s.outboxSeqNumber s1.outboxSeqNumber effs := by
  intro ret s1 effs h
  rw [try_cancel_invocation] at h
  cases hst : reader.getInvocationStatus maybeFid.toInvocationId with
  | invoked meta =>
      simp only [hst] at h
      cases hcl : cancel_journal_leaves s reader
          (FullInvocationId.combine meta.serviceId maybeFid.toInvocationId)
          .invoked meta.journalMetadata.length with
      | error err => simp [hcl] at h
      | ok v =>
        obtain ⟨rb, sb, eb⟩ := v
        simp only [hcl, except_bind_ok, Except.ok.injEq, Prod.mk.injEq] at h
        obtain ⟨_, hs, he⟩ := h
        subst hs; subst he
        exact cancel_journal_leaves_outbox s reader _ .invoked _ rb sb eb hcl
  | suspended meta w =>
      simp only [hst] at h
      cases hcl : cancel_journal_leaves s reader
          (FullInvocationId.combine meta.serviceId maybeFid.toInvocationId)
          (.suspended w) meta.journalMetadata.length with
      | error err => simp [hcl] at h
      | ok v =>
        obtain ⟨rb, sb, eb⟩ := v
        have obase := cancel_journal_leaves_outbox s reader _ (.suspended w) _
          rb sb eb hcl
        cases rb with
        | true =>
          simp only [hcl, except_bind_ok, if_true, Except.ok.injEq,
            Prod.mk.injEq] at h
          obtain ⟨_, hs, he⟩ := h
          subst hs; subst he
          exact outboxContiguous_append obase (outboxContiguous_nil _ _ rfl)
        | false =>
          simp only [hcl, except_bind_ok, Bool.false_eq_true, reduceIte,
            Except.ok.injEq, Prod.mk.injEq] at h
          obtain ⟨_, hs, he⟩ := h
          subst hs; subst he
          exact obase
  | free =>
      simp only [hst, Except.ok.injEq] at h
      have := try_terminate_inboxed_invocation_outbox s reader .cancel maybeFid now
      rw [h] at this
      exact this
  | inboxed a b =>
      simp only [hst, Except.ok.injEq] at h
      have := try_terminate_inboxed_invocation_outbox s reader .cancel maybeFid now
      rw [h] at this
      exact this

/-- try_terminate_invocation keeps the outbox contiguous. -/
theorem try_terminate_invocation_outbox (s : InterpState) (reader : StateReader)
    (t : InvocationTermination) (now : Nat) :
    ∀ (ret : Option FullInvocationId × SpanRelation) (s1 : InterpState)
      (effs : List Effect),
    try_terminate_invocation s reader t now = .ok (ret, s1, effs) →
    OutboxContiguous s.outboxSeqNumber s1.outboxSeqNumber effs := by
  intro ret s1 effs h
  rw [try_terminate_invocation] at h
  cases hf : t.flavor with
  | kill =>
      simp only [hf, Except.ok.injEq] at h
      have := try_kill_invocation_outbox s reader t.maybeFid now
      rw [h] at this
      exact this
  | cancel =>
      simp only [hf] at h
      exact try_cancel_invocation_outbox s reader t.maybeFid now ret s1 effs h

/-- One built-in invoker effect keeps the outbox contiguous. -/
theorem on_built_in_invoker_effect_outbox (s : InterpState)
    (fid : FullInvocationId) (meta : InvocationMetadata)
    (eff : BuiltinServiceEffect) :
    OutboxContiguous s.outboxSeqNumber
      (on_built_in_invoker_effect s fid meta eff).1.outboxSeqNumber
      (on_built_in_invoker_effect s fid meta eff).2 := by
  cases eff with
  | setState k v => exact outboxContiguous_nil _ _ rfl
  | clearState k => exact outboxContiguous_nil _ _ rfl
  | outboxMessage msg => exact handle_outgoing_message_outbox s msg
  | End e =>
      cases e with
      | none => exact end_invocation_outbox s fid meta
      | some err => exact fail_invocation_outbox s fid meta err
  | ingressResponse r => exact outboxContiguous_nil _ _ rfl

/-- The built-in effect loop keeps the outbox contiguous. -/
theorem built_in_effects_loop_outbox (fid : FullInvocationId)
    (meta : InvocationMetadata) (l : List BuiltinServiceEffect) :
    ∀ s : InterpState,
    OutboxContiguous s.outboxSeqNumber
      (built_in_effects_loop fid meta s l).1.outboxSeqNumber
      (built_in_effects_loop fid meta s l).2 := by
  induction l with
  | nil => intro s; exact outboxContiguous_nil _ _ rfl
  | cons eff rest ih =>
    intro s
    rcases h1 : on_built_in_invoker_effect s fid meta eff with ⟨s2, e2⟩
    rcases hrest : built_in_effects_loop fid meta s2 rest with ⟨s3, e3⟩
    simp only [built_in_effects_loop, h1, hrest]
    have o1 := on_built_in_invoker_effect_outbox s fid meta eff
    rw [h1] at o1
    have o2 := ih s2
    rw [hrest] at o2
    exact outboxContiguous_append o1 o2

/-- try_built_in_invoker_effect keeps the outbox contiguous. -/
theorem try_built_in_invoker_effect_outbox (s : InterpState)
    (reader : StateReader) (e : BuiltinServiceEffects) :
    OutboxContiguous s.outboxSeqNumber
      (try_built_in_invoker_effect s reader e).2.1.outboxSeqNumber
      (try_built_in_invoker_effect s reader e).2.2 := by
  rw [try_built_in_invoker_effect]
  cases reader.getInvocationStatus (InvocationId.ofFid e.fullInvocationId) with
  | invoked meta => exact built_in_effects_loop_outbox e.fullInvocationId meta _ s
  | free => exact outboxContiguous_nil _ _ rfl
  | inboxed a b => exact outboxContiguous_nil _ _ rfl
  | suspended meta w => exact outboxContiguous_nil _ _ rfl

/-- on_apply keeps the outbox contiguous. -/
theorem on_apply_outbox (codec : EntryCodec) (det : DeterministicServiceInvoker)
    (s : InterpState) (reader : StateReader) (now : Nat) (command : Command) :
    ∀ (ret : Option FullInvocationId × SpanRelation) (s1 : InterpState)
      (effs : List Effect),
    on_apply codec det s reader now command = .ok (ret, s1, effs) →
    OutboxContiguous s.outboxSeqNumber s1.outboxSeqNumber effs := by
  intro ret s1 effs h
  cases command with
  | invoke si =>
      simp only [on_apply] at h
      exact handle_invoke_outbox det s reader si ret s1 effs h
  | invocationResponse id idx res =>
      rcases hc : handle_completion reader id
          { entryIndex := idx, result := res.toCompletionResult } with ⟨r2, e2⟩
      simp only [on_apply, hc, Except.ok.injEq, Prod.mk.injEq] at h
      obtain ⟨_, hs, he⟩ := h
      subst hs; subst he
      refine outboxContiguous_nil _ _ ?_
      have := handle_completion_no_outbox reader id
        { entryIndex := idx, result := res.toCompletionResult }
      rw [hc] at this
      exact this
  | invokerEffect effect =>
      simp only [on_apply] at h
      cases hti : try_invoker_effect codec s reader effect with
      | error err => simp [hti] at h
      | ok v =>
        obtain ⟨r2, s2, e2⟩ := v
        simp only [hti, except_bind_ok, Except.ok.injEq, Prod.mk.injEq] at h
        obtain ⟨_, hs, he⟩ := h
        subst hs; subst he
        exact try_invoker_effect_outbox codec s reader effect r2 s2 e2 hti
  | truncateOutbox i =>
      simp only [on_apply, Except.ok.injEq, Prod.mk.injEq] at h
      obtain ⟨_, hs, he⟩ := h
      subst hs; subst he
      exact outboxContiguous_nil _ _ rfl
  | timer tv =>
      simp only [on_apply] at h
      exact on_timer_outbox det s reader tv ret s1 effs h
  | terminateInvocation t =>
      simp only [on_apply] at h
      exact try_terminate_invocation_outbox s reader t now ret s1 effs h
  | builtInInvokerEffect e =>
      simp only [on_apply, Except.ok.injEq] at h
      have := try_built_in_invoker_effect_outbox s reader e
      rw [h] at this
      exact this
  | patchState m =>
      simp only [on_apply, Except.ok.injEq] at h
      have := handle_external_state_mutation_outbox s reader m
      rw [h] at this
      exact this
  | announceLeader =>
      simp only [on_apply, Except.ok.injEq, Prod.mk.injEq] at h
      obtain ⟨_, hs, he⟩ := h
      subst hs; subst he
      exact outboxContiguous_nil _ _ rfl

/-- Applying a sequence of commands keeps the outbox contiguous. -/
theorem apply_sequence_outbox (codec : EntryCodec)
    (det : DeterministicServiceInvoker)
    (steps : List (StateReader × Nat × Command)) :
    ∀ s : InterpState,
    OutboxContiguous s.outboxSeqNumber
      (apply_sequence codec det s steps).1.outboxSeqNumber
      (apply_sequence codec det s steps).2 := by
  induction steps with
  | nil => intro s; exact outboxContiguous_nil _ _ rfl
  | cons step rest ih =>
    intro s
    obtain ⟨reader, now, command⟩ := step
    cases happ : on_apply codec det s reader now command with
    | error err =>
        simp only [apply_sequence, happ]
        exact outboxContiguous_nil _ _ rfl
    | ok v =>
        obtain ⟨r2, s2, e2⟩ := v
        rcases hrest : apply_sequence codec det s2 rest with ⟨s3, e3⟩
        simp only [apply_sequence, happ, hrest]
        have o1 := on_apply_outbox codec det s reader now command r2 s2 e2 happ
        have o2 := ih s2
        rw [hrest] at o2
        exact outboxContiguous_append o1 o2

/-- C7: handle_outgoing_message appends exactly one outbox enqueue carrying
the current counter and increments it by one, so across any sequence of
successfully applied commands the emitted outbox sequence numbers form the
contiguous strictly increasing range starting at the initial persisted
counter value. -/
theorem claim_C7 (codec : EntryCodec) (det : DeterministicServiceInvoker)
    (s : InterpState) (steps : List (StateReader × Nat × Command)) :
    (∀ (s0 : InterpState) (msg : OutboxMessage),
      handle_outgoing_message s0 msg =
        ({ s0 with outboxSeqNumber := s0.outboxSeqNumber + 1 },
          [.enqueueIntoOutbox s0.outboxSeqNumber msg])) ∧
    (apply_sequence codec det s steps).1.outboxSeqNumber =
      s.outboxSeqNumber +
        (outbox_seqs (apply_sequence codec det s steps).2).length ∧
    outbox_seqs (apply_sequence codec det s steps).2 =
      List.range' s.outboxSeqNumber
        (outbox_seqs (apply_sequence codec det s steps).2).length := by
  refine ⟨fun s0 msg => rfl, ?_, ?_⟩
  · exact (apply_sequence_outbox codec det steps s).1
  · exact (apply_sequence_outbox codec det steps s).2

/-- C1 counterexample: two runs of on_apply on the same command, the same
counters and a state reader answering identically, but at different
wall-clock instants, produce different effects: killing an inboxed
invocation records the clock reading in the invocation-result trace
effect. -/
theorem claim_C1_counterexample :
    on_apply identityCodec sampleDet sampleState inboxedReader 0
        (.terminateInvocation ⟨.invocationOnly sampleIid, .kill⟩) ≠
      on_apply identityCodec sampleDet sampleState inboxedReader 1
        (.terminateInvocation ⟨.invocationOnly sampleIid, .kill⟩) := by
  decide

/-- C1 (amended): on_apply is deterministic once the wall-clock reading is
fixed along with the command and the counters: two state readers answering
every query identically yield identical return values, counters and
byte-equal effects. -/
theorem claim_C1 (codec : EntryCodec) (det : DeterministicServiceInvoker)
    (s : InterpState) (now : Nat) (command : Command) (r1 r2 : StateReader)
    (h1 : ∀ x, r1.getVirtualObjectStatus x = r2.getVirtualObjectStatus x)
    (h2 : ∀ x, r1.getInvocationStatus x = r2.getInvocationStatus x)
    (h3 : ∀ x, r1.getInboxedInvocation x = r2.getInboxedInvocation x)
    (h4 : ∀ x n, r1.isEntryResumable x n = r2.isEntryResumable x n)
    (h5 : ∀ x k, r1.loadState x k = r2.loadState x k)
    (h6 : ∀ x, r1.loadStateKeys x = r2.loadStateKeys x)
    (h7 : ∀ x n, r1.loadCompletionResult x n = r2.loadCompletionResult x n)
    (h8 : ∀ x n, r1.getJournal x n = r2.getJournal x n) :
    on_apply codec det s r1 now command = on_apply codec det s r2 now command := by
  obtain ⟨f1, f2, f3, f4, f5, f6, f7, f8⟩ := r1
  obtain ⟨g1, g2, g3, g4, g5, g6, g7, g8⟩ := r2
  simp only at h1 h2 h3 h4 h5 h6 h7 h8
  have e1 : f1 = g1 := funext h1
  have e2 : f2 = g2 := funext h2
  have e3 : f3 = g3 := funext h3
  have e4 : f4 = g4 := funext fun x => funext fun n => h4 x n
  have e5 : f5 = g5 := funext fun x => funext fun k => h5 x k
  have e6 : f6 = g6 := funext h6
  have e7 : f7 = g7 := funext fun x => funext fun n => h7 x n
  have e8 : f8 = g8 := funext fun x => funext fun n => h8 x n
  subst e1; subst e2; subst e3; subst e4; subst e5; subst e6; subst e7; subst e8
  rfl

/-- Witness for the amended C1 at a concrete reader and command. -/
theorem claim_C1_witness :
    (∀ x, emptyReader.getVirtualObjectStatus x =
      emptyReader.getVirtualObjectStatus x) ∧
    on_apply identityCodec sampleDet sampleState emptyReader 5
        (.invoke sampleSi) =
      on_apply identityCodec sampleDet sampleState emptyReader 5
        (.invoke sampleSi) :=
  ⟨fun _ => rfl,
   claim_C1 identityCodec sampleDet sampleState 5 (.invoke sampleSi)
    emptyReader emptyReader (fun _ => rfl) (fun _ => rfl) (fun _ => rfl)
    (fun _ _ => rfl) (fun _ _ => rfl) (fun _ => rfl) (fun _ _ => rfl)
    (fun _ _ => rfl)⟩

end Restate
